import Mathlib

/-!
Shallow embedding of the timetable-scheduler core of this repository:

* `backend/services/ga_engine.py` — the genetic-algorithm engine
  (`prepare_data`, `_create_gene`, `create_chromosome`, `calculate_fitness`,
  `_calculate_schedule_quality_penalty`, `tournament_selection`, `crossover`,
  `_repair_chromosome`, `mutate`, `run_evolution`, `run_single_ga`);
* `backend/services/optimization.py` — the incremental repair optimiser
  (`_check_substitute_availability`, the timetable update of
  `handle_teacher_leave_optimization`, `optimize_for_room_change`,
  `_handle_room_emergency`).

Modelling conventions.

* Python lists become Lean lists with value semantics; machine arithmetic is
  `Nat`/`Int`.  Python floats are modelled as exact unreduced fractions
  (`PyFloat`, an `Int` numerator over an `Int` denominator) with comparison by
  cross-multiplication; every denominator built by the code below is positive.
* The `random` module is modelled as an explicit deterministic generator state
  threaded through every function, with one primitive `rngNext`; `random.seed`
  becomes construction of the initial state from the seed.  Every stochastic
  decision of the source (sort tie-breakers, candidate choice, tournament
  sample, crossover points, mutation strategy and mutated slot) draws from
  this single generator in source order.
* Dictionaries keyed by id with set values become lists of key/slot triples;
  `dict` assignment is modelled by prepending to an association list whose
  lookup takes the first (that is, the latest) binding.
* Database rows (`Timetable`, `Batch`, `Classroom`) become plain records; the
  SQLAlchemy queries of optimization.py become list filters and lookups over
  those records, and in-place row updates become pure list transformations.
* Places where the Python source would raise (indexing `population_fitness[0]`
  with an empty population, `max` of an empty sample) are modelled with
  defaults and are outside every theorem below, none of which exercises an
  empty population.
-/

/-- Days grid from backend/config.py (`DAYS`). -/
def settingsDAYS : List String :=
  ["Monday", "Tuesday", "Wednesday", "Thursday", "Friday"]

/-- Value `HOURS_PER_DAY` from backend/config.py. -/
def settingsHOURS_PER_DAY : Nat := 6

/-- Value `MAX_CONSECUTIVE_CLASSES` from backend/config.py. -/
def settingsMAX_CONSECUTIVE_CLASSES : Nat := 4

/-- A scheduled session: the `Gene` dataclass of ga_engine.py. -/
structure Gene where
  batch_id : String
  subject_name : String
  faculty_id : String
  room_id : String
  day : String
  hour : Nat
  week_type : String := "all"
deriving Repr, DecidableEq, Inhabited

/-- Exact-fraction model of a Python float; never normalised, compared by
cross-multiplication.  All denominators produced below are positive. -/
structure PyFloat where
  num : Int
  den : Int
deriving Repr, DecidableEq, Inhabited

def pfAdd (a b : PyFloat) : PyFloat :=
  ⟨a.num * b.den + b.num * a.den, a.den * b.den⟩

def pfMul (a b : PyFloat) : PyFloat :=
  ⟨a.num * b.num, a.den * b.den⟩

def pfDiv (a b : PyFloat) : PyFloat :=
  ⟨a.num * b.den, a.den * b.num⟩

/-- Strict comparison, valid for positive denominators. -/
def pfLt (a b : PyFloat) : Bool :=
  decide (a.num * b.den < b.num * a.den)

def pfLe (a b : PyFloat) : Bool :=
  decide (a.num * b.den ≤ b.num * a.den)

def pfMin (a b : PyFloat) : PyFloat :=
  if pfLe a b then a else b

def pfOfNat (n : Nat) : PyFloat := ⟨(n : Int), 1⟩

def pfOfInt (n : Int) : PyFloat := ⟨n, 1⟩

/-- Deterministic generator modelling the seeded `random` module: a linear
congruential step on the state. -/
structure RNG where
  state : Nat
deriving Repr, DecidableEq, Inhabited

def rngNext (r : RNG) : Nat × RNG :=
  let s := (r.state * 1103515245 + 12345) % 4294967296
  (s / 65536, ⟨s⟩)

/-- Python `random.randint(a, b)` (both ends inclusive, `a ≤ b` at every call site). -/
def pyRandint (a b : Nat) (r : RNG) : Nat × RNG :=
  let q := rngNext r
  (a + q.1 % (b + 1 - a), q.2)

/-- Python `random.random()`: a float in the unit interval. -/
def pyRandFloat (r : RNG) : PyFloat × RNG :=
  let q := rngNext r
  (⟨(q.1 % 16777216 : Nat), 16777216⟩, q.2)

/-- Python `random.choice(l)` for nonempty `l` (a default is returned on `[]`,
which no call site reaches). -/
def pyChoice {α : Type} [Inhabited α] (l : List α) (r : RNG) : α × RNG :=
  let q := rngNext r
  (l.getD (q.1 % l.length) default, q.2)

/-- Python `random.sample(l, k)`: `k` draws without replacement. -/
def pySample {α : Type} : Nat → List α → RNG → List α × RNG
  | 0, _, r => ([], r)
  | _ + 1, [], r => ([], r)
  | k + 1, x :: xs, r =>
    let q := rngNext r
    let idx := q.1 % (x :: xs).length
    let chosen := (x :: xs).getD idx x
    let rest := pySample k ((x :: xs).eraseIdx idx) q.2
    (chosen :: rest.1, rest.2)

/-- Stable insertion of `x` before the first element not below it. -/
def insertLe {α : Type} (le : α → α → Bool) (x : α) : List α → List α
  | [] => [x]
  | y :: ys => if le x y then x :: y :: ys else y :: insertLe le x ys

/-- Stable sort (the model of Python's stable `sorted` / `list.sort`). -/
def sortBy {α : Type} (le : α → α → Bool) : List α → List α
  | [] => []
  | x :: xs => insertLe le x (sortBy le xs)

/-- The per-resource used/seen slot sets of `create_chromosome` and
`_repair_chromosome`: dicts mapping an id to a set of `(day, hour)` pairs,
modelled as lists of `(id, day, hour)` triples. -/
structure UsedSlots where
  faculty : List (String × String × Nat)
  batch : List (String × String × Nat)
  room : List (String × String × Nat)
deriving Repr, DecidableEq

def emptyUsed : UsedSlots := ⟨[], [], []⟩

/-- The conflict test of `_repair_chromosome`: the gene's timeslot is already
taken for its faculty, its batch, or its room. -/
def geneConflicts (seen : UsedSlots) (g : Gene) : Bool :=
  decide ((g.faculty_id, g.day, g.hour) ∈ seen.faculty) ||
  decide ((g.batch_id, g.day, g.hour) ∈ seen.batch) ||
  decide ((g.room_id, g.day, g.hour) ∈ seen.room)

/-- Mark the gene's timeslot used on all three resources. -/
def addGene (seen : UsedSlots) (g : Gene) : UsedSlots :=
  ⟨(g.faculty_id, g.day, g.hour) :: seen.faculty,
   (g.batch_id, g.day, g.hour) :: seen.batch,
   (g.room_id, g.day, g.hour) :: seen.room⟩

/-- The scan of `_repair_chromosome`: keep a gene iff it does not collide
with the slots already seen, then mark its slots. -/
def repairAux (seen : UsedSlots) : List Gene → List Gene
  | [] => []
  | g :: rest =>
    if geneConflicts seen g then repairAux seen rest
    else g :: repairAux (addGene seen g) rest

/-- Embedding of `EnhancedTimetableGA._repair_chromosome`. -/
def _repair_chromosome (chromosome : List Gene) : List Gene :=
  if chromosome = [] then chromosome else repairAux emptyUsed chromosome

def facultyKeys (c : List Gene) : List (String × String × Nat) :=
  c.map fun g => (g.faculty_id, g.day, g.hour)

def batchKeys (c : List Gene) : List (String × String × Nat) :=
  c.map fun g => (g.batch_id, g.day, g.hour)

def roomKeys (c : List Gene) : List (String × String × Nat) :=
  c.map fun g => (g.room_id, g.day, g.hour)

/-- Feasibility of a schedule: each of `(instructor, slot)`, `(cohort, slot)`
and `(room, slot)` occurs in at most one assignment. -/
def feasible (c : List Gene) : Prop :=
  (facultyKeys c).Nodup ∧ (batchKeys c).Nodup ∧ (roomKeys c).Nodup

instance : DecidablePred feasible := fun c => by
  unfold feasible; infer_instance

/-- Comma split of a cell value: the source's `[s.strip() for s in raw.split(',')]`. -/
def splitAuxCSV : List Char → List Char → List (List Char)
  | [], cur => [cur.reverse]
  | c :: cs, cur =>
    if c = ',' then cur.reverse :: splitAuxCSV cs [] else splitAuxCSV cs (c :: cur)

def trimChars (l : List Char) : List Char :=
  ((l.dropWhile (fun c => c.isWhitespace)).reverse.dropWhile
    (fun c => c.isWhitespace)).reverse

def splitCSV (s : String) : List String :=
  (splitAuxCSV s.toList []).map (fun cs => String.mk (trimChars cs))

/-- A row of the batches dataframe (`Batch` table / uploaded cohort record). -/
structure BatchRec where
  department : String
  level : String
  semester : String
  student_count : Nat
  subjects : String
deriving Repr, DecidableEq, Inhabited

/-- A row of the subjects dataframe. -/
structure SubjectRec where
  name : String
  credits : Nat
  type : String
deriving Repr, DecidableEq, Inhabited

/-- A row of the faculty dataframe.  `subject_name` is the comma-separated
list of teachable subjects; `is_available` is carried by the table but — as
the theorems below establish — never consulted by `prepare_data`. -/
structure FacultyRec where
  employee_id : String
  subject_name : String
  max_hours_per_week : Nat
  is_available : Bool
deriving Repr, DecidableEq, Inhabited

/-- A row of the classrooms dataframe. -/
structure RoomRec where
  class_id : String
  capacity : Nat
  room_type : String
deriving Repr, DecidableEq, Inhabited

/-- The `ClassInfo` dataclass of ga_engine.py. -/
structure ClassInfo where
  batch_id : String
  subject_name : String
  subject_type : String
  student_count : Nat
  credits : Nat
  hours_per_week : Nat
deriving Repr, DecidableEq, Inhabited

/-- Embedding of `EnhancedTimetableGA._calculate_hours_per_week`. -/
def _calculate_hours_per_week (credits : Nat) (subject_type : String) : Nat :=
  if subject_type = "Lab" then min (credits * 2) 4
  else if credits ≥ 4 then 3
  else if credits = 3 then 2
  else 1

/-- The `faculty_subject_map` of `prepare_data` flattened to pairs
`(subject, employee_id)` in row-then-split order; the per-subject qualified
list is recovered by `qualifiedFor`. -/
def buildFSM (faculty : List FacultyRec) : List (String × String) :=
  faculty.flatMap
    (fun f => (splitCSV f.subject_name).map (fun s => (s, f.employee_id)))

def qualifiedFor (fsm : List (String × String)) (subject : String) : List String :=
  (fsm.filter (fun p => p.1 = subject)).map (fun p => p.2)

/-- Python `min(qualified_faculties, key=current_hours)`: the first element
attaining the minimum key. -/
def pyMinByWorkload (w : String → Nat) : List String → Option String
  | [] => none
  | f :: fs => some (fs.foldl (fun best g => if w g < w best then g else best) f)

/-- Accumulator of the `prepare_data` batch/subject loop. -/
structure PrepAcc where
  classes : List ClassInfo
  bsfMap : List ((String × String) × String)
  workload : String → Nat

/-- One iteration of the inner `for subject_name in subjects` loop of
`prepare_data`. -/
def prepStep (subjects : List SubjectRec) (fsm : List (String × String))
    (batch_id : String) (student_count : Nat) (acc : PrepAcc)
    (subject_name : String) : PrepAcc :=
  match subjects.find? (fun s => s.name = subject_name) with
  | none => acc
  | some sd =>
    let hours := _calculate_hours_per_week sd.credits sd.type
    match pyMinByWorkload acc.workload (qualifiedFor fsm subject_name) with
    | none => acc
    | some best =>
      { classes := acc.classes ++ List.replicate hours
          ⟨batch_id, subject_name, sd.type, student_count, sd.credits, hours⟩,
        bsfMap := ((batch_id, subject_name), best) :: acc.bsfMap,
        workload := fun f =>
          if f = best then acc.workload f + hours else acc.workload f }

/-- The result bundle of `prepare_data`. -/
structure PreparedData where
  labs : List RoomRec
  lecture_halls : List RoomRec
  faculty_subject_map : List (String × String)
  classes_to_schedule : List ClassInfo
  batch_subject_faculty_map : List ((String × String) × String)
  faculty_workload : String → Nat

/-- Embedding of `EnhancedTimetableGA.prepare_data`. -/
def prepare_data (batches : List BatchRec) (classrooms : List RoomRec)
    (faculty : List FacultyRec) (subjects : List SubjectRec) : PreparedData :=
  let fsm := buildFSM faculty
  let acc := batches.foldl
    (fun acc b =>
      let batch_id := b.department ++ "-" ++ b.level ++ "-" ++ b.semester
      (splitCSV b.subjects).foldl
        (prepStep subjects fsm batch_id b.student_count) acc)
    ⟨[], [], fun _ => 0⟩
  { labs := classrooms.filter (fun r => r.room_type = "Laboratory"),
    lecture_halls := classrooms.filter (fun r => r.room_type ≠ "Laboratory"),
    faculty_subject_map := fsm,
    classes_to_schedule := acc.classes,
    batch_subject_faculty_map := acc.bsfMap,
    faculty_workload := acc.workload }

/-- Dict lookup in `batch_subject_faculty_map` (latest binding first). -/
def bsfLookup (m : List ((String × String) × String)) (k : String × String) :
    Option String :=
  (m.find? (fun p => p.1 = k)).map (fun p => p.2)

/-- All grid slots `self.timeslots`: `(day, hour)` pairs with `hour ∈ [1, 6]`. -/
def timeslots : List (String × Nat) :=
  settingsDAYS.flatMap
    (fun day => (List.range settingsHOURS_PER_DAY).map (fun h => (day, h + 1)))

/-- Embedding of `EnhancedTimetableGA._get_preferred_slots`. -/
def _get_preferred_slots (subject_type : String) : List (String × Nat) :=
  let all_slots := timeslots
  if subject_type = "Lab" then
    let preferred := all_slots.filter (fun slot => slot.2 ≥ 3)
    preferred ++ all_slots.filter (fun slot => slot ∉ preferred)
  else
    let preferred := all_slots.filter (fun slot => slot.2 ≤ 3)
    preferred ++ all_slots.filter (fun slot => slot ∉ preferred)

/-- The `(timeslot, room)` candidates of `_create_gene`: preferred slots where
faculty and batch are free, paired with the first eligible room free there. -/
def availableSlotsFor (fid : String) (ci : ClassInfo)
    (possible_rooms : List RoomRec) (used : UsedSlots) :
    List ((String × Nat) × RoomRec) :=
  (_get_preferred_slots ci.subject_type).filterMap
    (fun ts =>
      if (fid, ts.1, ts.2) ∉ used.faculty ∧
         (ci.batch_id, ts.1, ts.2) ∉ used.batch then
        (possible_rooms.find?
          (fun room => (room.class_id, ts.1, ts.2) ∉ used.room)).map
          (fun room => (ts, room))
      else none)

/-- The room/slot selection half of `_create_gene`, after the faculty lookup
and the room-pool filter. -/
def _create_gene_pick (fid : String) (ci : ClassInfo)
    (possible_rooms : List RoomRec) (used : UsedSlots) (r : RNG) :
    Option Gene × RNG :=
  if possible_rooms = [] then (none, r)
  else
    let available_slots := availableSlotsFor fid ci possible_rooms used
    if available_slots = [] then (none, r)
    else
      let q := pyChoice available_slots r
      (some ⟨ci.batch_id, ci.subject_name, fid, q.1.2.class_id, q.1.1.1,
             q.1.1.2, "all"⟩, q.2)

/-- Embedding of `EnhancedTimetableGA._create_gene`. -/
def _create_gene (ci : ClassInfo) (used : UsedSlots) (data : PreparedData)
    (r : RNG) : Option Gene × RNG :=
  match bsfLookup data.batch_subject_faculty_map (ci.batch_id, ci.subject_name) with
  | none => (none, r)
  | some fid =>
    if fid = "" then (none, r)
    else
      _create_gene_pick fid ci
        ((if ci.subject_type = "Lab" then data.labs
          else data.lecture_halls).filter
          (fun room => room.capacity ≥ ci.student_count)) used r

/-- The random sort keys of `create_chromosome`:
`(x.subject_type != 'Lab', -x.credits, random.random())`, drawn in list
order. -/
def drawSortKeys : List ClassInfo → RNG →
    List ((Bool × Int × PyFloat) × ClassInfo) × RNG
  | [], r => ([], r)
  | c :: cs, r =>
    let q := pyRandFloat r
    let rest := drawSortKeys cs q.2
    (((decide (c.subject_type ≠ "Lab"), -(c.credits : Int), q.1), c) :: rest.1,
     rest.2)

def boolLtKey (a b : Bool) : Bool := !a && b

/-- Lexicographic order on the sort key (Python tuple comparison). -/
def keyLe (k1 k2 : Bool × Int × PyFloat) : Bool :=
  boolLtKey k1.1 k2.1 ||
  (k1.1 = k2.1 && (decide (k1.2.1 < k2.2.1) ||
    (decide (k1.2.1 = k2.2.1) && pfLe k1.2.2 k2.2.2)))

/-- One step of the gene-collection loop of `create_chromosome`. -/
def chromStep (data : PreparedData) (acc : List Gene × UsedSlots × RNG)
    (ci : ClassInfo) : List Gene × UsedSlots × RNG :=
  match (_create_gene ci acc.2.1 data acc.2.2).1 with
  | none => (acc.1, acc.2.1, (_create_gene ci acc.2.1 data acc.2.2).2)
  | some g =>
    (acc.1 ++ [g], addGene acc.2.1 g, (_create_gene ci acc.2.1 data acc.2.2).2)

/-- Embedding of `EnhancedTimetableGA.create_chromosome`. -/
def create_chromosome (data : PreparedData) (r : RNG) : List Gene × RNG :=
  let keyed := drawSortKeys data.classes_to_schedule r
  let sorted_classes :=
    (sortBy (fun a b => keyLe a.1 b.1) keyed.1).map (fun p => p.2)
  let res := sorted_classes.foldl (chromStep data) ([], emptyUsed, keyed.2)
  (res.1, res.2.2)

/-- Append `v` to the group of key `k` (`defaultdict(list)` appends),
keeping first-seen key order. -/
def groupInsert {κ α : Type} [DecidableEq κ] :
    List (κ × List α) → κ → α → List (κ × List α)
  | [], k, v => [(k, [v])]
  | (k2, vs) :: rest, k, v =>
    if k = k2 then (k2, vs ++ [v]) :: rest
    else (k2, vs) :: groupInsert rest k v

def groupByKey {κ α : Type} [DecidableEq κ] (pairs : List (κ × α)) :
    List (κ × List α) :=
  pairs.foldl (fun acc p => groupInsert acc p.1 p.2) []

/-- Python `len(set(l))`. -/
def distinctCount {α : Type} [DecidableEq α] : List α → Nat
  | [] => 0
  | x :: xs => (if x ∈ xs then 0 else 1) + distinctCount xs

/-- The gap loop of `_calculate_schedule_quality_penalty`:
`gap = hours[i+1] - hours[i] - 1; if gap > 1: penalty += 15 * gap`. -/
def gapLoop : List Int → Int
  | h1 :: h2 :: rest =>
    (if h2 - h1 - 1 > 1 then 15 * (h2 - h1 - 1) else 0) + gapLoop (h2 :: rest)
  | _ => 0

/-- The consecutive-run loop of `_calculate_schedule_quality_penalty`,
carrying `consecutive_count` and `max_consecutive`. -/
def consecLoop : List Int → Nat → Nat → Nat
  | h1 :: h2 :: rest, cc, mc =>
    if h2 = h1 + 1 then consecLoop (h2 :: rest) (cc + 1) mc
    else consecLoop (h2 :: rest) 1 (max mc cc)
  | _, cc, mc => max mc cc

/-- The source's `sorted(hours)`, injected into `Int` for the arithmetic. -/
def sortedHoursInt (hours : List Nat) : List Int :=
  (sortBy (fun a b => decide (a ≤ b)) hours).map Int.ofNat

/-- The excessive-consecutive component of the per-day penalty, as computed
by the source loop. -/
def consecPenaltyPart (hs : List Int) : Int :=
  if consecLoop hs 1 0 > settingsMAX_CONSECUTIVE_CLASSES then
    (25 : Int) * ((consecLoop hs 1 0 : Int) -
      (settingsMAX_CONSECUTIVE_CLASSES : Int))
  else 0

/-- The per-day body of `_calculate_schedule_quality_penalty`. -/
def dayQualityPenalty (hours : List Nat) : Int :=
  if hours.length ≤ 1 then 0
  else gapLoop (sortedHoursInt hours) + consecPenaltyPart (sortedHoursInt hours)

/-- Embedding of `EnhancedTimetableGA._calculate_schedule_quality_penalty` (weights
`consecutive_gap = 15`, `excessive_consecutive = 25` folded in). -/
def _calculate_schedule_quality_penalty (slots : List (String × Nat)) : Int :=
  ((groupByKey slots).map (fun g => dayQualityPenalty g.2)).sum

/-- Exact `np.var` on the list of daily hour counts, as an exact fraction:
`sum((n*x - s)^2) / n^3` where `s = sum(l)` and `n = len(l)`. -/
def npVar (l : List Nat) : PyFloat :=
  let n : Int := l.length
  let s : Int := (l.map (fun x => (x : Int))).sum
  ⟨(l.map (fun x => (n * (x : Int) - s) ^ 2)).sum, n ^ 3⟩

/-- Sum of `len(slots) - len(set(slots))` over the groups of one grouping. -/
def dupExcess (groups : List (String × List (String × Nat))) : Nat :=
  (groups.map (fun g => g.2.length - distinctCount g.2)).sum

/-- Embedding of `EnhancedTimetableGA.calculate_fitness`: `1 / (1 + penalty)`, `0` for the
empty chromosome. -/
def calculate_fitness (chromosome : List Gene) : PyFloat :=
  if chromosome = [] then ⟨0, 1⟩
  else
    let faculty_slots :=
      groupByKey (chromosome.map (fun g => (g.faculty_id, (g.day, g.hour))))
    let batch_slots :=
      groupByKey (chromosome.map (fun g => (g.batch_id, (g.day, g.hour))))
    let room_slots :=
      groupByKey (chromosome.map (fun g => (g.room_id, (g.day, g.hour))))
    let hard : Nat :=
      1000 * (dupExcess faculty_slots + dupExcess batch_slots +
        dupExcess room_slots)
    let soft : Int :=
      (batch_slots.map (fun g => _calculate_schedule_quality_penalty g.2)).sum
    let overload : PyFloat :=
      (faculty_slots.map (fun g =>
        let daily_hours := (groupByKey g.2).map (fun d => d.2.length)
        if daily_hours = [] then (⟨0, 1⟩ : PyFloat)
        else pfMul ⟨50, 1⟩ (npVar daily_hours))).foldl pfAdd ⟨0, 1⟩
    let penalty := pfAdd (pfAdd (pfOfNat hard) (pfOfInt soft)) overload
    pfDiv ⟨1, 1⟩ (pfAdd ⟨1, 1⟩ penalty)

/-- Python `max(tournament, key=lambda x: x[0])`: first pair with maximal
fitness ( `[]` — unreachable from the engine with a nonempty population —
maps to the empty chromosome). -/
def maxByFitness : List (PyFloat × List Gene) → List Gene
  | [] => []
  | x :: xs => (xs.foldl (fun acc y => if pfLt acc.1 y.1 then y else acc) x).2

/-- Embedding of `EnhancedTimetableGA.tournament_selection`. -/
def tournament_selection (tournament_size : Nat)
    (population_fitness : List (PyFloat × List Gene)) (r : RNG) :
    List Gene × RNG :=
  let k := min tournament_size population_fitness.length
  let q := pySample k population_fitness r
  (maxByFitness q.1, q.2)

/-- Embedding of `EnhancedTimetableGA.crossover` (two-point, then repair). -/
def crossover (parent1 parent2 : List Gene) (r : RNG) : List Gene × RNG :=
  if parent1 = [] ∨ parent2 = [] then
    ((if parent1 = [] then parent2 else parent1), r)
  else
    let min_len := min parent1.length parent2.length
    if min_len < 2 then (parent1, r)
    else
      let q1 := pyRandint 1 (min_len / 2) r
      let q2 := pyRandint (min_len / 2) (min_len - 1) q1.2
      let child := parent1.take q1.1 ++
        ((parent2.drop q1.1).take (q2.1 - q1.1)) ++ parent1.drop q2.1
      (_repair_chromosome child, q2.2)

/-- Embedding of `EnhancedTimetableGA.mutate` (value-semantics model of the chromosome
lists; the in-place aliasing of the source is modelled separately by the
heap embedding further below). -/
def mutate (mutation_rate : PyFloat) (chromosome : List Gene) (r : RNG) :
    List Gene × RNG :=
  if chromosome = [] then (chromosome, r)
  else
    let q1 := pyRandFloat r
    if pfLt mutation_rate q1.1 then (chromosome, q1.2)
    else
      let q2 := pyChoice ["timeslot", "swap", "room"] q1.2
      if q2.1 = "timeslot" then
        let q3 := pyRandint 0 (chromosome.length - 1) q2.2
        let q4 := pyChoice settingsDAYS q3.2
        let q5 := pyRandint 1 settingsHOURS_PER_DAY q4.2
        let g := chromosome.getD q3.1 default
        (_repair_chromosome
          (chromosome.set q3.1 { g with day := q4.1, hour := q5.1 }), q5.2)
      else if q2.1 = "swap" ∧ chromosome.length > 1 then
        let q3 := pySample 2 (List.range chromosome.length) q2.2
        let i := q3.1.getD 0 0
        let j := q3.1.getD 1 0
        let gi := chromosome.getD i default
        let gj := chromosome.getD j default
        let c2 := (chromosome.set i { gi with day := gj.day, hour := gj.hour }).set
          j { gj with day := gi.day, hour := gi.hour }
        (_repair_chromosome c2, q3.2)
      else (_repair_chromosome chromosome, q2.2)

/-- The `GAConfig` of ga_engine.py (`parallel_runs` is irrelevant to a single
run and omitted). -/
structure GAConfig where
  population_size : Nat
  max_generations : Nat
  mutation_rate : PyFloat
  elitism_rate : PyFloat
  tournament_size : Nat
deriving Repr

/-- The defaults of backend/config.py. -/
def defaultGAConfig : GAConfig := ⟨100, 100, ⟨2, 100⟩, ⟨5, 100⟩, 5⟩

/-- The population initialiser of `run_evolution`. -/
def initPopulation (data : PreparedData) : Nat → RNG → List (List Gene) × RNG
  | 0, r => ([], r)
  | n + 1, r =>
    let q := create_chromosome data r
    let rest := initPopulation data n q.2
    (q.1 :: rest.1, rest.2)

/-- Elite count `int(population_size * elitism_rate)` (both factors nonnegative). -/
def eliteCount (cfg : GAConfig) : Nat :=
  (cfg.population_size * cfg.elitism_rate.num.toNat) / cfg.elitism_rate.den.toNat

/-- The offspring `while` loop of `run_evolution`, by remaining count. -/
def fillOffspring (cfg : GAConfig) (mrate : PyFloat)
    (population_fitness : List (PyFloat × List Gene)) :
    Nat → RNG → List (List Gene) × RNG
  | 0, r => ([], r)
  | n + 1, r =>
    let p1 := tournament_selection cfg.tournament_size population_fitness r
    let p2 := tournament_selection cfg.tournament_size population_fitness p1.2
    let ch := crossover p1.1 p2.1 p2.2
    let ch2 := mutate mrate ch.1 ch.2
    let rest := fillOffspring cfg mrate population_fitness n ch2.2
    (ch2.1 :: rest.1, rest.2)

/-- The mutable locals of the `run_evolution` loop.  The model carries
`population`, `best_chromosome` and the elites as independent values; the
source carries the same mutable list and `Gene` objects forward (its copies
are shallow), so later in-place mutations reach those snapshots in the
program though not in this model — that aliasing is modelled separately by
the `GeneHeap` reference semantics below. -/
structure EvoState where
  population : List (List Gene)
  best_fitness : PyFloat
  best_chromosome : Option (List Gene)
  no_improve : Nat
  mutation_rate : PyFloat
  fitness_history : List PyFloat
  rng : RNG

/-- The `for generation in range(max_generations)` loop of `run_evolution`.
Returns the final state together with the last generation's sorted
`population_fitness` (needed by the function's final `return`). -/
def evolveLoop (cfg : GAConfig) :
    Nat → EvoState → List (PyFloat × List Gene) →
    EvoState × List (PyFloat × List Gene)
  | 0, st, lastPF => (st, lastPF)
  | gensLeft + 1, st, _ =>
    let pf := st.population.map (fun ch => (calculate_fitness ch, ch))
    let pfSorted := sortBy (fun a b => pfLe b.1 a.1) pf
    let current_best := (pfSorted.headD (⟨0, 1⟩, [])).1
    let improved := pfLt st.best_fitness current_best
    let best_fitness := if improved then current_best else st.best_fitness
    let best_chromosome :=
      if improved then some (pfSorted.headD (⟨0, 1⟩, [])).2
      else st.best_chromosome
    let no_improve := if improved then 0 else st.no_improve + 1
    let history := st.fitness_history ++ [current_best]
    if pfLe ⟨99, 100⟩ current_best then
      ({ st with
          best_fitness := best_fitness,
          best_chromosome := best_chromosome,
          no_improve := no_improve,
          fitness_history := history }, pfSorted)
    else
      let mrate :=
        if no_improve > 20 then pfMin ⟨1, 10⟩ (pfMul st.mutation_rate ⟨11, 10⟩)
        else st.mutation_rate
      let elites := (pfSorted.take (eliteCount cfg)).map (fun p => p.2)
      let offspring := fillOffspring cfg mrate pfSorted
        (cfg.population_size - elites.length) st.rng
      evolveLoop cfg gensLeft
        { population := elites ++ offspring.1, best_fitness := best_fitness,
          best_chromosome := best_chromosome, no_improve := no_improve,
          mutation_rate := mrate, fitness_history := history,
          rng := offspring.2 }
        pfSorted

/-- Embedding of `EnhancedTimetableGA.run_evolution` (logging, DB, timing stripped):
returns `best_chromosome or population_fitness[0][1]` together with
`self.fitness_history` and the final generator state. -/
def run_evolution (cfg : GAConfig) (data : PreparedData) (r : RNG) :
    List Gene × List PyFloat × RNG :=
  let pop := initPopulation data cfg.population_size r
  let st0 : EvoState := ⟨pop.1, ⟨0, 1⟩, none, 0, cfg.mutation_rate, [], pop.2⟩
  let fin := evolveLoop cfg cfg.max_generations st0 []
  let result :=
    match fin.1.best_chromosome with
    | some c => if c = [] then (fin.2.headD (⟨0, 1⟩, [])).2 else c
    | none => (fin.2.headD (⟨0, 1⟩, [])).2
  (result, fin.1.fitness_history, fin.1.rng)

/-- Embedding of `TimetableOptimizer.generate_multiple_solutions.run_single_ga`: seed the
generator, build the problem, run one evolution, return the best chromosome
with its fitness, together with the run's fitness history. -/
def run_single_ga (cfg : GAConfig) (seed : Nat) (batches : List BatchRec)
    (classrooms : List RoomRec) (faculty : List FacultyRec)
    (subjects : List SubjectRec) : (List Gene × PyFloat) × List PyFloat :=
  let r0 : RNG := ⟨seed⟩
  let data := prepare_data batches classrooms faculty subjects
  let res := run_evolution cfg data r0
  ((res.1, calculate_fitness res.1), res.2.1)

/-- A `Timetable` row of optimization.py. -/
structure TEntry where
  batch_id : String
  subject_name : String
  faculty_id : String
  room_id : String
  day : String
  hour : Nat
  status : String
deriving Repr, DecidableEq, Inhabited

/-- A `Batch` row as consulted by the room-change handlers. -/
structure BatchRow where
  batch_id : String
  student_count : Nat
deriving Repr, DecidableEq, Inhabited

/-- Embedding of `OptimizationService._check_substitute_availability`: the substitute is
free on every slot of the affected entries. -/
def _check_substitute_availability (substitute_faculty_id : String)
    (affected_entries : List TEntry) (entries : List TEntry) : Bool :=
  let substitute_entries := entries.filter
    (fun e => e.faculty_id = substitute_faculty_id && e.status = "active")
  let occupied_slots := substitute_entries.map (fun e => (e.day, e.hour))
  affected_entries.all (fun e => decide ((e.day, e.hour) ∉ occupied_slots))

/-- The timetable transformation of
`OptimizationService.handle_teacher_leave_optimization`: collect the
original instructor's active entries; if there are none, return unchanged;
if the substitute has a conflict, fail without touching the schedule;
otherwise rewrite every affected entry's instructor. -/
def handle_teacher_leave_optimization (entries : List TEntry)
    (original_faculty_id substitute_faculty_id : String) :
    Except String (List TEntry) :=
  let affected_entries := entries.filter
    (fun e => e.faculty_id = original_faculty_id && e.status = "active")
  if affected_entries = [] then Except.ok entries
  else if _check_substitute_availability substitute_faculty_id
      affected_entries entries then
    Except.ok (entries.map (fun e =>
      if e.faculty_id = original_faculty_id && e.status = "active" then
        { e with faculty_id := substitute_faculty_id }
      else e))
  else Except.error "Substitute teacher has scheduling conflicts"

/-- Predicate for rows hit by `optimize_for_room_change`. -/
def roomChangeAffected (old_room_id : String)
    (affected_batches : Option (List String)) (e : TEntry) : Bool :=
  e.room_id = old_room_id && e.status = "active" &&
    (match affected_batches with
     | none => true
     | some bs => decide (e.batch_id ∈ bs))

/-- Embedding of `OptimizationService.optimize_for_room_change`: returns the updated rows
and the `capacity_issues` list `(batch_id, student_count, room_capacity)`.
Over-capacity rows are skipped (`continue`), all other affected rows get the
new room. -/
def optimize_for_room_change (entries : List TEntry) (batches : List BatchRow)
    (old_room_id new_room_id : String) (new_capacity : Nat)
    (affected_batches : Option (List String)) :
    List TEntry × List (String × Nat × Nat) :=
  let overCap := fun (e : TEntry) =>
    match batches.find? (fun b => b.batch_id = e.batch_id) with
    | some b => decide (b.student_count > new_capacity)
    | none => false
  (entries.map (fun e =>
      if roomChangeAffected old_room_id affected_batches e && !(overCap e) then
        { e with room_id := new_room_id }
      else e),
   entries.filterMap (fun e =>
      if roomChangeAffected old_room_id affected_batches e then
        match batches.find? (fun b => b.batch_id = e.batch_id) with
        | some b =>
          if b.student_count > new_capacity then
            some (e.batch_id, b.student_count, new_capacity)
          else none
        | none => none
      else none))

/-- One room of `OptimizationService._handle_room_emergency`, in the branch
where the replacement room exists: fitting (or batch-less) rows are moved to
the replacement, over-capacity rows are cancelled. -/
def _handle_room_emergency (entries : List TEntry) (batches : List BatchRow)
    (room_id replacement_room_id : String) (replacement_capacity : Nat) :
    List TEntry :=
  entries.map (fun e =>
    if e.room_id = room_id && e.status = "active" then
      match batches.find? (fun b => b.batch_id = e.batch_id) with
      | none => { e with room_id := replacement_room_id }
      | some b =>
        if b.student_count ≤ replacement_capacity then
          { e with room_id := replacement_room_id }
        else { e with status := "cancelled" }
    else e)

/-- Reference-semantics model for the aliasing behaviour of the source: a
heap of `Gene` objects; a chromosome is a list of references into it
(`list.copy()` copies the reference list only). -/
structure GeneHeap where
  objs : List Gene
deriving Repr, DecidableEq

/-- The genes a chromosome denotes on a given heap. -/
def derefChromosome (h : GeneHeap) (c : List Nat) : List Gene :=
  c.map (fun ref => h.objs.getD ref default)

/-- The heap effect of the timeslot mutation strategy of `mutate`:
`mutated[idx].day = new_day; mutated[idx].hour = new_hour` writes through
the shared reference. -/
def mutateTimeslotInPlace (h : GeneHeap) (c : List Nat) (idx : Nat)
    (new_day : String) (new_hour : Nat) : GeneHeap :=
  let ref := c.getD idx 0
  ⟨h.objs.set ref
    { h.objs.getD ref default with day := new_day, hour := new_hour }⟩

/-- Invariant of the chromosome-construction fold: the partial chromosome is
feasible and every key it uses is recorded in the used-slot sets. -/
def chromInv (chrom : List Gene) (used : UsedSlots) : Prop :=
  feasible chrom ∧
  ∀ g ∈ chrom,
    (g.faculty_id, g.day, g.hour) ∈ used.faculty ∧
    (g.batch_id, g.day, g.hour) ∈ used.batch ∧
    (g.room_id, g.day, g.hour) ∈ used.room

/-- The spec formula for the intra-day gap penalty as the claim states it:
`15 · max(0, h2 − h1 − 2)` per adjacent pair of the sorted hour list. -/
def specGapPenaltyClaimed (hs : List Int) : Int :=
  ((hs.zip hs.tail).map (fun p => 15 * max 0 (p.2 - p.1 - 2))).sum

/-- The amended spec formula: each adjacent pair with `gap = h2 − h1 − 1`
empty hours contributes `15 · gap` when `gap ≥ 2` and nothing otherwise. -/
def specGapPenaltyAmended (hs : List Int) : Int :=
  ((hs.zip hs.tail).map (fun p =>
    if p.2 - p.1 - 1 ≥ 2 then 15 * (p.2 - p.1 - 1) else 0)).sum

/-- The conflict condition of instructor substitution: some active entry of
the original instructor shares its slot with an active entry of the
substitute. -/
def substituteConflict (entries : List TEntry) (orig sub : String) : Prop :=
  ∃ e ∈ entries, e.faculty_id = orig ∧ e.status = "active" ∧
    ∃ e2 ∈ entries, e2.faculty_id = sub ∧ e2.status = "active" ∧
      e2.day = e.day ∧ e2.hour = e.hour

instance (entries : List TEntry) (orig sub : String) :
    Decidable (substituteConflict entries orig sub) := by
  unfold substituteConflict; infer_instance

/-- Minimality over `L` of an instructor's provisional workload. -/
def minPred (w : String → Nat) (L : List String) (f : String) : Bool :=
  decide (∀ g ∈ L, w f ≤ w g)

/-- The spec's selection rule, stated directly: the first instructor in the
qualified list whose provisional workload is minimal over the whole list. -/
def firstMinBy (w : String → Nat) (l : List String) : Option String :=
  l.find? (minPred w l)

/-- Workload table used to exercise the instructor-selection rule. -/
def w0demo : String → Nat := fun f => if f = "T2" then 1 else 5

lemma repairAux_subset {seen : UsedSlots} {l : List Gene} {g : Gene}
    (h : g ∈ repairAux seen l) : g ∈ l := by
  induction l generalizing seen with
  | nil => simp [repairAux] at h
  | cons x xs ih =>
    cases hgc : geneConflicts seen x with
    | true =>
      rw [repairAux, if_pos hgc] at h
      exact List.mem_cons_of_mem _ (ih h)
    | false =>
      rw [repairAux, if_neg (by simp [hgc])] at h
      rcases List.mem_cons.mp h with h1 | h1
      · exact h1 ▸ List.mem_cons_self _ _
      · exact List.mem_cons_of_mem _ (ih h1)

lemma repairAux_not_seen {seen : UsedSlots} {l : List Gene} {g : Gene}
    (h : g ∈ repairAux seen l) :
    (g.faculty_id, g.day, g.hour) ∉ seen.faculty ∧
    (g.batch_id, g.day, g.hour) ∉ seen.batch ∧
    (g.room_id, g.day, g.hour) ∉ seen.room := by
  induction l generalizing seen with
  | nil => simp [repairAux] at h
  | cons x xs ih =>
    cases hgc : geneConflicts seen x with
    | true =>
      rw [repairAux, if_pos hgc] at h
      exact ih h
    | false =>
      rw [repairAux, if_neg (by simp [hgc])] at h
      rcases List.mem_cons.mp h with h1 | h1
      · subst h1
        simp only [geneConflicts, Bool.or_eq_false_iff, decide_eq_false_iff_not] at hgc
        exact ⟨hgc.1.1, hgc.1.2, hgc.2⟩
      · have h3 := ih h1
        simp only [addGene, List.mem_cons] at h3
        push_neg at h3
        exact ⟨h3.1.2, h3.2.1.2, h3.2.2.2⟩

lemma repairAux_feasible (l : List Gene) (seen : UsedSlots) :
    feasible (repairAux seen l) := by
  induction l generalizing seen with
  | nil => exact ⟨List.nodup_nil, List.nodup_nil, List.nodup_nil⟩
  | cons x xs ih =>
    cases hgc : geneConflicts seen x with
    | true =>
      rw [repairAux, if_pos hgc]
      exact ih seen
    | false =>
      rw [repairAux, if_neg (by simp [hgc])]
      obtain ⟨hf, hb, hr⟩ := ih (addGene seen x)
      refine ⟨List.nodup_cons.mpr ⟨?_, hf⟩,
              List.nodup_cons.mpr ⟨?_, hb⟩,
              List.nodup_cons.mpr ⟨?_, hr⟩⟩
      · intro hmem
        simp only [facultyKeys, List.mem_map] at hmem
        obtain ⟨g, hg, hkey⟩ := hmem
        have h2 := (repairAux_not_seen hg).1
        rw [hkey] at h2
        exact h2 (by simp [addGene])
      · intro hmem
        simp only [batchKeys, List.mem_map] at hmem
        obtain ⟨g, hg, hkey⟩ := hmem
        have h2 := (repairAux_not_seen hg).2.1
        rw [hkey] at h2
        exact h2 (by simp [addGene])
      · intro hmem
        simp only [roomKeys, List.mem_map] at hmem
        obtain ⟨g, hg, hkey⟩ := hmem
        have h2 := (repairAux_not_seen hg).2.2
        rw [hkey] at h2
        exact h2 (by simp [addGene])

lemma repair_feasible (c : List Gene) : feasible (_repair_chromosome c) := by
  unfold _repair_chromosome
  by_cases h : c = []
  · simp [h, feasible, facultyKeys, batchKeys, roomKeys]
  · simpa [h] using repairAux_feasible c emptyUsed

lemma repairAux_idem (l : List Gene) (seen : UsedSlots) :
    repairAux seen (repairAux seen l) = repairAux seen l := by
  induction l generalizing seen with
  | nil => simp [repairAux]
  | cons x xs ih =>
    cases hgc : geneConflicts seen x with
    | true =>
      rw [repairAux, if_pos hgc]
      exact ih seen
    | false =>
      rw [repairAux, if_neg (by simp [hgc]), repairAux, if_neg (by simp [hgc]),
        ih (addGene seen x)]

lemma repair_idempotent (s : List Gene) :
    _repair_chromosome (_repair_chromosome s) = _repair_chromosome s := by
  unfold _repair_chromosome
  by_cases h : s = []
  · simp [h]
  · simp only [h, if_false]
    by_cases h2 : repairAux emptyUsed s = []
    · simp [h2]
    · simp only [h2, if_false]
      exact repairAux_idem s emptyUsed

lemma getD_mem_of_lt {α : Type} (l : List α) (n : Nat) (d : α)
    (h : n < l.length) : l.getD n d ∈ l := by
  rw [List.getD_eq_getElem l d h]
  exact List.getElem_mem h

lemma insertLe_mem {α : Type} {le : α → α → Bool} {x y : α} {l : List α} :
    y ∈ insertLe le x l ↔ y = x ∨ y ∈ l := by
  induction l with
  | nil => simp [insertLe]
  | cons z zs ih =>
    unfold insertLe
    cases hxz : le x z with
    | true => simp [List.mem_cons]
    | false =>
      simp only [Bool.false_eq_true, if_false, List.mem_cons, ih]
      tauto

lemma sortBy_mem {α : Type} {le : α → α → Bool} {y : α} {l : List α} :
    y ∈ sortBy le l ↔ y ∈ l := by
  induction l with
  | nil => simp [sortBy]
  | cons x xs ih => simp [sortBy, insertLe_mem, ih]

lemma empty_feasible : feasible [] :=
  ⟨List.nodup_nil, List.nodup_nil, List.nodup_nil⟩

lemma crossover_feasible {parent1 parent2 : List Gene} (r : RNG)
    (h1 : feasible parent1) (h2 : feasible parent2) :
    feasible (crossover parent1 parent2 r).1 := by
  unfold crossover
  split
  · split
    · exact h2
    · exact h1
  · simp only
    split
    · exact h1
    · exact repair_feasible _

lemma mutate_feasible {mutation_rate : PyFloat} {chromosome : List Gene}
    (r : RNG) (h : feasible chromosome) :
    feasible (mutate mutation_rate chromosome r).1 := by
  unfold mutate
  split
  · exact h
  · simp only
    split
    · exact h
    · split
      · exact repair_feasible _
      · split
        · exact repair_feasible _
        · exact repair_feasible _

lemma pySample_subset {α : Type} :
    ∀ (k : Nat) (l : List α) (r : RNG) {x : α},
      x ∈ (pySample k l r).1 → x ∈ l := by
  intro k
  induction k with
  | zero => intro l r x h; simp [pySample] at h
  | succ n ih =>
    intro l r x h
    cases l with
    | nil => simp [pySample] at h
    | cons y ys =>
      simp only [pySample, List.mem_cons] at h
      rcases h with h | h
      · subst h
        exact getD_mem_of_lt _ _ _
          (Nat.mod_lt _ (by simp [List.length_cons, Nat.succ_pos]))
      · exact List.eraseIdx_subset _ _ (ih _ _ h)

lemma foldl_ite_mem {α : Type} (g : α → α → Bool) :
    ∀ (xs : List α) (acc : α),
      xs.foldl (fun a y => if g a y then y else a) acc = acc ∨
      xs.foldl (fun a y => if g a y then y else a) acc ∈ xs := by
  intro xs
  induction xs with
  | nil => intro acc; left; rfl
  | cons y ys ih =>
    intro acc
    simp only [List.foldl_cons]
    rcases ih (if g acc y then y else acc) with h | h
    · rw [h]
      by_cases hg : g acc y
      · right; simp [hg]
      · left; simp [hg]
    · right; exact List.mem_cons_of_mem _ h

lemma maxByFitness_cases (l : List (PyFloat × List Gene)) :
    maxByFitness l = [] ∨ ∃ p ∈ l, maxByFitness l = p.2 := by
  cases l with
  | nil => left; rfl
  | cons x xs =>
    right
    simp only [maxByFitness]
    rcases foldl_ite_mem (fun a y => pfLt a.1 y.1) xs x with h | h
    · exact ⟨x, List.mem_cons_self _ _, by rw [h]⟩
    · exact ⟨_, List.mem_cons_of_mem _ h, rfl⟩

lemma tournament_selection_feasible {tournament_size : Nat}
    {population_fitness : List (PyFloat × List Gene)} (r : RNG)
    (h : ∀ p ∈ population_fitness, feasible p.2) :
    feasible (tournament_selection tournament_size population_fitness r).1 := by
  unfold tournament_selection
  simp only
  rcases maxByFitness_cases
      (pySample (min tournament_size population_fitness.length)
        population_fitness r).1 with hm | ⟨p, hp, hm⟩
  · rw [hm]; exact empty_feasible
  · rw [hm]
    exact h p (pySample_subset _ _ _ hp)

lemma availableSlotsFor_spec {fid : String} {ci : ClassInfo}
    {possible_rooms : List RoomRec} {used : UsedSlots}
    {p : (String × Nat) × RoomRec}
    (h : p ∈ availableSlotsFor fid ci possible_rooms used) :
    (fid, p.1.1, p.1.2) ∉ used.faculty ∧
    (ci.batch_id, p.1.1, p.1.2) ∉ used.batch ∧
    (p.2.class_id, p.1.1, p.1.2) ∉ used.room ∧
    p.2 ∈ possible_rooms := by
  unfold availableSlotsFor at h
  obtain ⟨ts, hts, hf⟩ := List.mem_filterMap.mp h
  by_cases hcond : (fid, ts.1, ts.2) ∉ used.faculty ∧
      (ci.batch_id, ts.1, ts.2) ∉ used.batch
  · rw [if_pos hcond] at hf
    obtain ⟨room, hfind, hpair⟩ := Option.map_eq_some'.mp hf
    have hroomfree := List.find?_some hfind
    have hroommem := List.mem_of_find?_eq_some hfind
    have h1 : p.1 = ts := by rw [← hpair]
    have h2 : p.2 = room := by rw [← hpair]
    rw [h1, h2]
    simp only [decide_eq_true_eq] at hroomfree
    exact ⟨hcond.1, hcond.2, hroomfree, hroommem⟩
  · rw [if_neg hcond] at hf
    simp at hf

lemma _create_gene_pick_spec {fid : String} {ci : ClassInfo}
    {possible_rooms : List RoomRec} {used : UsedSlots} {r : RNG} {g : Gene}
    (h : (_create_gene_pick fid ci possible_rooms used r).1 = some g) :
    (g.faculty_id, g.day, g.hour) ∉ used.faculty ∧
    (g.batch_id, g.day, g.hour) ∉ used.batch ∧
    (g.room_id, g.day, g.hour) ∉ used.room ∧
    g.batch_id = ci.batch_id ∧ g.subject_name = ci.subject_name ∧
    g.faculty_id = fid ∧
    ∃ room ∈ possible_rooms, g.room_id = room.class_id := by
  unfold _create_gene_pick at h
  split at h
  · simp at h
  · dsimp only at h
    split at h
    · simp at h
    · rename_i hslots
      set avail := availableSlotsFor fid ci possible_rooms used with hav
      have hlen : 0 < avail.length := List.length_pos.mpr hslots
      have hmem : (pyChoice avail r).1 ∈ avail := by
        unfold pyChoice
        exact getD_mem_of_lt _ _ _ (Nat.mod_lt _ hlen)
      obtain ⟨hfree_f, hfree_b, hfree_r, hroommem⟩ := availableSlotsFor_spec hmem
      have hgeq := (Option.some.inj h).symm
      subst hgeq
      exact ⟨hfree_f, hfree_b, hfree_r, rfl, rfl, rfl,
        ⟨(pyChoice avail r).1.2, hroommem, rfl⟩⟩

lemma _create_gene_spec {ci : ClassInfo} {used : UsedSlots}
    {data : PreparedData} {r : RNG} {g : Gene}
    (h : (_create_gene ci used data r).1 = some g) :
    (g.faculty_id, g.day, g.hour) ∉ used.faculty ∧
    (g.batch_id, g.day, g.hour) ∉ used.batch ∧
    (g.room_id, g.day, g.hour) ∉ used.room ∧
    g.batch_id = ci.batch_id ∧
    g.subject_name = ci.subject_name ∧
    ∃ room ∈ (if ci.subject_type = "Lab" then data.labs
              else data.lecture_halls),
      room.capacity ≥ ci.student_count ∧ g.room_id = room.class_id := by
  unfold _create_gene at h
  cases hb : bsfLookup data.batch_subject_faculty_map
      (ci.batch_id, ci.subject_name) with
  | none => rw [hb] at h; simp at h
  | some fid =>
    rw [hb] at h
    dsimp only at h
    split at h
    · simp at h
    · obtain ⟨h1, h2, h3, h4, h5, _, room, hroommem, hrid⟩ :=
        _create_gene_pick_spec h
      obtain ⟨hbase, hcap⟩ := List.mem_filter.mp hroommem
      exact ⟨h1, h2, h3, h4, h5, room, hbase, by simpa using hcap, hrid⟩

lemma chromStep_inv (data : PreparedData) (ci : ClassInfo)
    {acc : List Gene × UsedSlots × RNG} (h : chromInv acc.1 acc.2.1) :
    chromInv (chromStep data acc ci).1 (chromStep data acc ci).2.1 := by
  unfold chromStep
  cases hg : (_create_gene ci acc.2.1 data acc.2.2).1 with
  | none => exact h
  | some g =>
    dsimp only
    obtain ⟨hfree_f, hfree_b, hfree_r, _, _, _⟩ := _create_gene_spec hg
    obtain ⟨hnf, hnb, hnr⟩ := h.1
    constructor
    · refine ⟨?_, ?_, ?_⟩
      · unfold facultyKeys at hnf ⊢
        rw [List.map_append]
        refine List.Nodup.append hnf (by simp) ?_
        simp only [List.map_cons, List.map_nil, List.disjoint_left]
        intro a ha
        simp only [List.mem_singleton]
        intro hak
        obtain ⟨g0, hg0, hkey⟩ := List.mem_map.mp ha
        exact hfree_f (hak ▸ hkey ▸ (h.2 g0 hg0).1)
      · unfold batchKeys at hnb ⊢
        rw [List.map_append]
        refine List.Nodup.append hnb (by simp) ?_
        simp only [List.map_cons, List.map_nil, List.disjoint_left]
        intro a ha
        simp only [List.mem_singleton]
        intro hak
        obtain ⟨g0, hg0, hkey⟩ := List.mem_map.mp ha
        exact hfree_b (hak ▸ hkey ▸ (h.2 g0 hg0).2.1)
      · unfold roomKeys at hnr ⊢
        rw [List.map_append]
        refine List.Nodup.append hnr (by simp) ?_
        simp only [List.map_cons, List.map_nil, List.disjoint_left]
        intro a ha
        simp only [List.mem_singleton]
        intro hak
        obtain ⟨g0, hg0, hkey⟩ := List.mem_map.mp ha
        exact hfree_r (hak ▸ hkey ▸ (h.2 g0 hg0).2.2)
    · intro g0 hg0
      rcases List.mem_append.mp hg0 with hg0 | hg0
      · obtain ⟨k1, k2, k3⟩ := h.2 g0 hg0
        exact ⟨List.mem_cons_of_mem _ k1, List.mem_cons_of_mem _ k2,
          List.mem_cons_of_mem _ k3⟩
      · rw [List.mem_singleton.mp hg0]
        exact ⟨List.mem_cons_self _ _, List.mem_cons_self _ _,
          List.mem_cons_self _ _⟩

lemma create_chromosome_feasible (data : PreparedData) (r : RNG) :
    feasible (create_chromosome data r).1 := by
  have hfold : ∀ (classes : List ClassInfo) (acc : List Gene × UsedSlots × RNG),
      chromInv acc.1 acc.2.1 →
      chromInv (classes.foldl (chromStep data) acc).1
        (classes.foldl (chromStep data) acc).2.1 := by
    intro classes
    induction classes with
    | nil => intro acc h; exact h
    | cons c cs ih => intro acc h; exact ih _ (chromStep_inv data c h)
  exact (hfold _ ([], emptyUsed, (drawSortKeys data.classes_to_schedule r).2)
    ⟨empty_feasible, by simp⟩).1

lemma initPopulation_feasible (data : PreparedData) :
    ∀ (n : Nat) (r : RNG), ∀ c ∈ (initPopulation data n r).1, feasible c := by
  intro n
  induction n with
  | zero => intro r c hc; simp [initPopulation] at hc
  | succ k ih =>
    intro r c hc
    simp only [initPopulation, List.mem_cons] at hc
    rcases hc with rfl | hc
    · exact create_chromosome_feasible data r
    · exact ih _ _ hc

lemma fillOffspring_feasible (cfg : GAConfig) (mrate : PyFloat)
    {population_fitness : List (PyFloat × List Gene)}
    (h : ∀ p ∈ population_fitness, feasible p.2) :
    ∀ (n : Nat) (r : RNG), ∀ c ∈ (fillOffspring cfg mrate population_fitness n r).1,
      feasible c := by
  intro n
  induction n with
  | zero => intro r c hc; simp [fillOffspring] at hc
  | succ k ih =>
    intro r c hc
    simp only [fillOffspring, List.mem_cons] at hc
    rcases hc with rfl | hc
    · exact mutate_feasible _
        (crossover_feasible _ (tournament_selection_feasible _ h)
          (tournament_selection_feasible _ h))
    · exact ih _ _ hc

lemma headD_snd_feasible {l : List (PyFloat × List Gene)}
    (h : ∀ p ∈ l, feasible p.2) : feasible (l.headD (⟨0, 1⟩, [])).2 := by
  cases l with
  | nil => exact empty_feasible
  | cons x xs => exact h x (List.mem_cons_self _ _)

lemma evolveLoop_inv (cfg : GAConfig) :
    ∀ (gens : Nat) (st : EvoState) (lastPF : List (PyFloat × List Gene)),
      (∀ c ∈ st.population, feasible c) →
      (∀ c, st.best_chromosome = some c → feasible c) →
      (∀ p ∈ lastPF, feasible p.2) →
      (∀ c ∈ (evolveLoop cfg gens st lastPF).1.population, feasible c) ∧
      (∀ c, (evolveLoop cfg gens st lastPF).1.best_chromosome = some c →
        feasible c) ∧
      (∀ p ∈ (evolveLoop cfg gens st lastPF).2, feasible p.2) := by
  intro gens
  induction gens with
  | zero => intro st lastPF h1 h2 h3; exact ⟨h1, h2, h3⟩
  | succ n ih =>
    intro st lastPF h1 h2 h3
    have hpf : ∀ p ∈ st.population.map (fun ch => (calculate_fitness ch, ch)),
        feasible p.2 := by
      intro p hp
      obtain ⟨ch, hch, rfl⟩ := List.mem_map.mp hp
      exact h1 ch hch
    have hsorted : ∀ p ∈ sortBy (fun a b => pfLe b.1 a.1)
        (st.population.map (fun ch => (calculate_fitness ch, ch))),
        feasible p.2 := fun p hp => hpf p (sortBy_mem.mp hp)
    have hbest : ∀ c,
        (if pfLt st.best_fitness
            ((sortBy (fun a b => pfLe b.1 a.1)
              (st.population.map (fun ch => (calculate_fitness ch, ch)))).headD
              (⟨0, 1⟩, [])).1 then
          some ((sortBy (fun a b => pfLe b.1 a.1)
            (st.population.map (fun ch => (calculate_fitness ch, ch)))).headD
            (⟨0, 1⟩, [])).2
        else st.best_chromosome) = some c → feasible c := by
      intro c hc
      split at hc
      · rw [← Option.some.inj hc]
        exact headD_snd_feasible hsorted
      · exact h2 c hc
    simp only [evolveLoop]
    split
    · exact ⟨h1, hbest, hsorted⟩
    · refine ih _ _ ?_ hbest hsorted
      intro c hc
      rcases List.mem_append.mp hc with hc | hc
      · obtain ⟨p, hp, rfl⟩ := List.mem_map.mp hc
        exact hsorted p (List.mem_of_mem_take hp)
      · exact fillOffspring_feasible cfg _ hsorted _ _ _ hc

lemma run_evolution_feasible (cfg : GAConfig) (data : PreparedData) (r : RNG) :
    feasible (run_evolution cfg data r).1 := by
  have hinv := evolveLoop_inv cfg cfg.max_generations
    ⟨(initPopulation data cfg.population_size r).1, ⟨0, 1⟩, none, 0,
      cfg.mutation_rate, [], (initPopulation data cfg.population_size r).2⟩ []
    (fun c hc => initPopulation_feasible data cfg.population_size r c hc)
    (fun c hc => by simp at hc) (by simp)
  simp only [run_evolution]
  split
  · rename_i c hc
    split
    · exact headD_snd_feasible hinv.2.2
    · exact hinv.2.1 c hc
  · exact headD_snd_feasible hinv.2.2

lemma gapLoop_eq_specAmended : ∀ hs : List Int,
    gapLoop hs = specGapPenaltyAmended hs := by
  intro hs
  match hs with
  | [] => rfl
  | [h] => rfl
  | h1 :: h2 :: rest =>
    have ih := gapLoop_eq_specAmended (h2 :: rest)
    unfold gapLoop
    rw [ih]
    unfold specGapPenaltyAmended
    simp only [List.tail_cons, List.zip_cons_cons, List.map_cons, List.sum_cons]
    congr 1

lemma dayQualityPenalty_eq (hours : List Nat) :
    dayQualityPenalty hours =
      specGapPenaltyAmended (sortedHoursInt hours) +
        consecPenaltyPart (sortedHoursInt hours) := by
  unfold dayQualityPenalty
  split
  · rename_i hlen
    match hours, hlen with
    | [], _ =>
      simp [sortedHoursInt, sortBy, specGapPenaltyAmended, consecPenaltyPart,
        consecLoop, settingsMAX_CONSECUTIVE_CLASSES]
    | [h], _ =>
      simp [sortedHoursInt, sortBy, insertLe, specGapPenaltyAmended,
        consecPenaltyPart, consecLoop, settingsMAX_CONSECUTIVE_CLASSES]
  · rw [gapLoop_eq_specAmended]

lemma check_avail_false_iff (entries : List TEntry) (orig sub : String) :
    _check_substitute_availability sub
      (entries.filter (fun e => e.faculty_id = orig && e.status = "active"))
      entries = false ↔ substituteConflict entries orig sub := by
  unfold _check_substitute_availability substituteConflict
  rw [← Bool.not_eq_true, List.all_eq_true]
  simp only [List.mem_filter, Bool.and_eq_true, decide_eq_true_eq,
    List.mem_map, not_forall]
  constructor
  · rintro ⟨e, ⟨he, hfac, hstat⟩, hocc⟩
    rw [not_not] at hocc
    obtain ⟨e2, ⟨he2, hf2, hs2⟩, hslot⟩ := hocc
    have hde := ((Prod.mk.injEq _ _ _ _).mp hslot).1
    have hhe := ((Prod.mk.injEq _ _ _ _).mp hslot).2
    exact ⟨e, he, hfac, hstat, e2, he2, hf2, hs2, hde, hhe⟩
  · rintro ⟨e, he, hfac, hstat, e2, he2, hf2, hs2, hd, hh⟩
    refine ⟨e, ⟨he, hfac, hstat⟩, ?_⟩
    rw [not_not]
    exact ⟨e2, ⟨he2, hf2, hs2⟩, by rw [hd, hh]⟩

lemma getD_map_eq {α β : Type} [Inhabited α] [Inhabited β] (f : α → β)
    (l : List α) (i : Nat) (h : i < l.length) :
    (l.map f).getD i default = f (l.getD i default) := by
  rw [List.getD_eq_getElem _ _ (by simpa using h), List.getD_eq_getElem _ _ h,
    List.getElem_map]

lemma teacher_leave_conflict {entries : List TEntry} {orig sub : String}
    (h : substituteConflict entries orig sub) :
    handle_teacher_leave_optimization entries orig sub =
      Except.error "Substitute teacher has scheduling conflicts" := by
  have hne : entries.filter
      (fun e => e.faculty_id = orig && e.status = "active") ≠ [] := by
    obtain ⟨e, he, hfac, hstat, _⟩ := h
    exact List.ne_nil_of_mem (List.mem_filter.mpr ⟨he, by
      rw [Bool.and_eq_true]
      exact ⟨decide_eq_true hfac, decide_eq_true hstat⟩⟩)
  have hF := (check_avail_false_iff entries orig sub).mpr h
  unfold handle_teacher_leave_optimization
  rw [if_neg hne, if_neg (by rw [hF]; simp)]

lemma teacher_leave_success {entries : List TEntry} {orig sub : String}
    (h : ¬ substituteConflict entries orig sub) :
    ∃ l, handle_teacher_leave_optimization entries orig sub = Except.ok l ∧
      l.length = entries.length ∧
      ∀ i, i < entries.length →
        (((entries.getD i default).faculty_id = orig ∧
            (entries.getD i default).status = "active") →
          l.getD i default =
            { entries.getD i default with faculty_id := sub }) ∧
        (¬ ((entries.getD i default).faculty_id = orig ∧
            (entries.getD i default).status = "active") →
          l.getD i default = entries.getD i default) := by
  unfold handle_teacher_leave_optimization
  by_cases hemp : entries.filter
      (fun e => e.faculty_id = orig && e.status = "active") = []
  · rw [if_pos hemp]
    refine ⟨entries, rfl, rfl, ?_⟩
    intro i hi
    constructor
    · intro hcond
      exfalso
      have hmem : entries.getD i default ∈ entries.filter
          (fun e => e.faculty_id = orig && e.status = "active") :=
        List.mem_filter.mpr ⟨getD_mem_of_lt _ _ _ hi, by
          rw [Bool.and_eq_true]
          exact ⟨decide_eq_true hcond.1, decide_eq_true hcond.2⟩⟩
      rw [hemp] at hmem
      simp at hmem
    · intro _; rfl
  · rw [if_neg hemp]
    have hcheck : _check_substitute_availability sub
        (entries.filter (fun e => e.faculty_id = orig && e.status = "active"))
        entries = true := by
      rcases Bool.eq_false_or_eq_true (_check_substitute_availability sub
        (entries.filter (fun e => e.faculty_id = orig && e.status = "active"))
        entries) with hT | hF
      · exact hT
      · exact absurd ((check_avail_false_iff entries orig sub).mp hF) h
    rw [if_pos hcheck]
    refine ⟨_, rfl, List.length_map _ _, ?_⟩
    intro i hi
    rw [getD_map_eq _ _ _ hi]
    constructor
    · intro hcond
      rw [if_pos (by
        rw [Bool.and_eq_true]
        exact ⟨decide_eq_true hcond.1, decide_eq_true hcond.2⟩)]
    · intro hcond
      rw [if_neg]
      simp only [Bool.and_eq_true, decide_eq_true_eq]
      exact fun hc => hcond hc

lemma room_change_entry (entries : List TEntry) (batches : List BatchRow)
    (oldR newR : String) (cap : Nat) (ab : Option (List String)) (i : Nat)
    (hi : i < entries.length) :
    (roomChangeAffected oldR ab (entries.getD i default) = true →
      (∀ b, batches.find?
          (fun b2 => b2.batch_id = (entries.getD i default).batch_id) =
          some b →
        (b.student_count > cap →
          (optimize_for_room_change entries batches oldR newR cap ab).1.getD
            i default = entries.getD i default ∧
          ((entries.getD i default).batch_id, b.student_count, cap) ∈
            (optimize_for_room_change entries batches oldR newR cap ab).2) ∧
        (b.student_count ≤ cap →
          (optimize_for_room_change entries batches oldR newR cap ab).1.getD
            i default =
            { entries.getD i default with room_id := newR })) ∧
      (batches.find?
          (fun b2 => b2.batch_id = (entries.getD i default).batch_id) =
          none →
        (optimize_for_room_change entries batches oldR newR cap ab).1.getD
          i default = { entries.getD i default with room_id := newR })) ∧
    (roomChangeAffected oldR ab (entries.getD i default) = false →
      (optimize_for_room_change entries batches oldR newR cap ab).1.getD
        i default = entries.getD i default) := by
  unfold optimize_for_room_change
  dsimp only
  rw [getD_map_eq _ _ _ hi]
  constructor
  · intro haff
    constructor
    · intro b hfind
      constructor
      · intro hover
        constructor
        · rw [if_neg]
          rw [haff, hfind]
          simp [hover]
        · apply List.mem_filterMap.mpr
          refine ⟨entries.getD i default, getD_mem_of_lt _ _ _ hi, ?_⟩
          rw [if_pos haff, hfind]
          dsimp only
          rw [if_pos hover]
      · intro hfit
        rw [if_pos]
        rw [haff, hfind]
        simp [Nat.not_lt.mpr hfit]
    · intro hfind
      rw [if_pos]
      rw [haff, hfind]
      simp
  · intro haff
    rw [if_neg]
    rw [haff]
    simp

lemma room_emergency_entry (entries : List TEntry) (batches : List BatchRow)
    (room_id replacement_room_id : String) (cap : Nat) (i : Nat)
    (hi : i < entries.length) :
    (((entries.getD i default).room_id = room_id ∧
        (entries.getD i default).status = "active") →
      (∀ b, batches.find?
          (fun b2 => b2.batch_id = (entries.getD i default).batch_id) =
          some b →
        (b.student_count > cap →
          (_handle_room_emergency entries batches room_id replacement_room_id
            cap).getD i default =
            { entries.getD i default with status := "cancelled" }) ∧
        (b.student_count ≤ cap →
          (_handle_room_emergency entries batches room_id replacement_room_id
            cap).getD i default =
            { entries.getD i default with room_id := replacement_room_id })) ∧
      (batches.find?
          (fun b2 => b2.batch_id = (entries.getD i default).batch_id) =
          none →
        (_handle_room_emergency entries batches room_id replacement_room_id
          cap).getD i default =
          { entries.getD i default with room_id := replacement_room_id })) ∧
    (¬ ((entries.getD i default).room_id = room_id ∧
        (entries.getD i default).status = "active") →
      (_handle_room_emergency entries batches room_id replacement_room_id
        cap).getD i default = entries.getD i default) := by
  unfold _handle_room_emergency
  rw [getD_map_eq _ _ _ hi]
  constructor
  · intro hcond
    have hbool : ((entries.getD i default).room_id = room_id &&
        (entries.getD i default).status = "active") = true := by
      rw [Bool.and_eq_true]
      exact ⟨decide_eq_true hcond.1, decide_eq_true hcond.2⟩
    constructor
    · intro b hfind
      constructor
      · intro hover
        rw [if_pos hbool, hfind]
        dsimp only
        rw [if_neg (Nat.not_le.mpr hover)]
      · intro hfit
        rw [if_pos hbool, hfind]
        dsimp only
        rw [if_pos hfit]
    · intro hfind
      rw [if_pos hbool, hfind]
  · intro hcond
    rw [if_neg]
    simp only [Bool.and_eq_true, decide_eq_true_eq]
    exact fun hc => hcond hc

lemma room_change_all_over (entries : List TEntry) (batches : List BatchRow)
    (oldR newR : String) (cap : Nat) (ab : Option (List String))
    (h : ∀ e ∈ entries, roomChangeAffected oldR ab e = true →
      ∃ b, batches.find? (fun b2 => b2.batch_id = e.batch_id) = some b ∧
        b.student_count > cap) :
    (optimize_for_room_change entries batches oldR newR cap ab).1 = entries ∧
    ∀ e ∈ entries, roomChangeAffected oldR ab e = true →
      ∃ b, batches.find? (fun b2 => b2.batch_id = e.batch_id) = some b ∧
        (e.batch_id, b.student_count, cap) ∈
          (optimize_for_room_change entries batches oldR newR cap ab).2 := by
  constructor
  · unfold optimize_for_room_change
    dsimp only
    have hcongr : ∀ e ∈ entries,
        (if roomChangeAffected oldR ab e &&
            !(match batches.find? (fun b2 => b2.batch_id = e.batch_id) with
              | some b => decide (b.student_count > cap)
              | none => false) then
          { e with room_id := newR }
        else e) = e := by
      intro e he
      by_cases haff : roomChangeAffected oldR ab e = true
      · obtain ⟨b, hfind, hover⟩ := h e he haff
        rw [if_neg]
        rw [haff, hfind]
        simp [hover]
      · rw [if_neg]
        rw [Bool.not_eq_true] at haff
        rw [haff]
        simp
    calc entries.map _ = entries.map id := List.map_congr_left hcongr
      _ = entries := List.map_id entries
  · intro e he haff
    obtain ⟨b, hfind, hover⟩ := h e he haff
    refine ⟨b, hfind, ?_⟩
    unfold optimize_for_room_change
    dsimp only
    apply List.mem_filterMap.mpr
    refine ⟨e, he, ?_⟩
    rw [if_pos haff, hfind]
    dsimp only
    rw [if_pos hover]

lemma room_emergency_all_over (entries : List TEntry) (batches : List BatchRow)
    (room_id replacement_room_id : String) (cap : Nat)
    (h : ∀ e ∈ entries, e.room_id = room_id → e.status = "active" →
      ∃ b, batches.find? (fun b2 => b2.batch_id = e.batch_id) = some b ∧
        b.student_count > cap) :
    ∀ i, i < entries.length →
      (entries.getD i default).room_id = room_id →
      (entries.getD i default).status = "active" →
      (_handle_room_emergency entries batches room_id replacement_room_id
        cap).getD i default =
        { entries.getD i default with status := "cancelled" } := by
  intro i hi hroom hstat
  obtain ⟨b, hfind, hover⟩ :=
    h (entries.getD i default) (getD_mem_of_lt _ _ _ hi) hroom hstat
  exact (((room_emergency_entry entries batches room_id replacement_room_id
    cap i hi).1 ⟨hroom, hstat⟩).1 b hfind).1 hover

lemma minPred_true {w : String → Nat} {L : List String} {f : String} :
    minPred w L f = true ↔ ∀ g ∈ L, w f ≤ w g := by
  simp [minPred]

lemma find?_congr_mem {α : Type} {p q : α → Bool} :
    ∀ {l : List α}, (∀ x ∈ l, p x = q x) → l.find? p = l.find? q := by
  intro l
  induction l with
  | nil => intro _; rfl
  | cons a as ih =>
    intro h
    rw [List.find?_cons, List.find?_cons, h a (List.mem_cons_self _ _)]
    cases hq : q a with
    | true => rfl
    | false => exact ih (fun x hx => h x (List.mem_cons_of_mem _ hx))

lemma pyMin_eq_firstMin (w : String → Nat) :
    ∀ (fs : List String) (b : String),
      pyMinByWorkload w (b :: fs) = firstMinBy w (b :: fs) := by
  intro fs
  induction fs with
  | nil =>
    intro b
    have hpred : minPred w [b] b = true := minPred_true.mpr (by simp)
    simp only [pyMinByWorkload, firstMinBy, List.foldl_nil,
      List.find?_cons_of_pos _ hpred]
  | cons g gs ih =>
    intro b
    by_cases hlt : w g < w b
    · have hstep : pyMinByWorkload w (b :: g :: gs) =
          pyMinByWorkload w (g :: gs) := by
        simp only [pyMinByWorkload, List.foldl_cons, if_pos hlt]
      rw [hstep, ih g]
      unfold firstMinBy
      have hbfail : ¬ minPred w (b :: g :: gs) b = true := by
        rw [minPred_true]
        intro hall
        exact absurd (hall g (List.mem_cons_of_mem _ (List.mem_cons_self _ _)))
          (Nat.not_le.mpr hlt)
      have hbig : (b :: g :: gs).find? (minPred w (b :: g :: gs)) =
          (g :: gs).find? (minPred w (b :: g :: gs)) :=
        List.find?_cons_of_neg _ hbfail
      rw [hbig]
      apply find?_congr_mem
      intro x hx
      rw [Bool.eq_iff_iff, minPred_true, minPred_true]
      constructor
      · intro hall y hy
        rcases List.mem_cons.mp hy with rfl | hy
        · exact Nat.le_of_lt
            (Nat.lt_of_le_of_lt (hall g (List.mem_cons_self _ _)) hlt)
        · exact hall y hy
      · intro hall y hy
        exact hall y (List.mem_cons_of_mem _ hy)
    · have hble : w b ≤ w g := Nat.le_of_not_lt hlt
      have hstep : pyMinByWorkload w (b :: g :: gs) =
          pyMinByWorkload w (b :: gs) := by
        simp only [pyMinByWorkload, List.foldl_cons, if_neg hlt]
      rw [hstep, ih b]
      unfold firstMinBy
      by_cases hb : ∀ y ∈ b :: g :: gs, w b ≤ w y
      · have hsmallpos : minPred w (b :: gs) b = true := by
          rw [minPred_true]
          intro y hy
          rcases List.mem_cons.mp hy with rfl | hy
          · exact Nat.le_refl _
          · exact hb y (List.mem_cons_of_mem _ (List.mem_cons_of_mem _ hy))
        rw [List.find?_cons_of_pos _ hsmallpos,
          List.find?_cons_of_pos _ (minPred_true.mpr hb)]
      · have hsmallneg : ¬ minPred w (b :: gs) b = true := by
          rw [minPred_true]
          intro hall
          apply hb
          intro y hy
          rcases List.mem_cons.mp hy with rfl | hy
          · exact Nat.le_refl _
          · rcases List.mem_cons.mp hy with rfl | hy
            · exact hble
            · exact hall y (List.mem_cons_of_mem _ hy)
        have hbigneg : ¬ minPred w (b :: g :: gs) b = true := by
          rw [minPred_true]
          exact hb
        have hgfail : ¬ minPred w (b :: g :: gs) g = true := by
          rw [minPred_true]
          intro hall
          apply hb
          intro y hy
          exact Nat.le_trans hble (hall y hy)
        have e1 : (b :: gs).find? (minPred w (b :: gs)) =
            gs.find? (minPred w (b :: gs)) :=
          List.find?_cons_of_neg _ hsmallneg
        have e2 : (b :: g :: gs).find? (minPred w (b :: g :: gs)) =
            (g :: gs).find? (minPred w (b :: g :: gs)) :=
          List.find?_cons_of_neg _ hbigneg
        have e3 : (g :: gs).find? (minPred w (b :: g :: gs)) =
            gs.find? (minPred w (b :: g :: gs)) :=
          List.find?_cons_of_neg _ hgfail
        rw [e1, e2, e3]
        apply find?_congr_mem
        intro x hx
        rw [Bool.eq_iff_iff, minPred_true, minPred_true]
        constructor
        · intro hall y hy
          rcases List.mem_cons.mp hy with rfl | hy
          · exact hall y (List.mem_cons_self _ _)
          · rcases List.mem_cons.mp hy with rfl | hy
            · exact Nat.le_trans (hall b (List.mem_cons_self _ _)) hble
            · exact hall y (List.mem_cons_of_mem _ hy)
        · intro hall y hy
          rcases List.mem_cons.mp hy with rfl | hy
          · exact hall y (List.mem_cons_self _ _)
          · exact hall y
              (List.mem_cons_of_mem _ (List.mem_cons_of_mem _ hy))

lemma firstMinBy_spec (w : String → Nat) (l : List String) (f : String)
    (h : firstMinBy w l = some f) : f ∈ l ∧ ∀ g ∈ l, w f ≤ w g := by
  unfold firstMinBy at h
  exact ⟨List.mem_of_find?_eq_some h, minPred_true.mp (List.find?_some h)⟩

lemma qualifiedFor_iff (faculty : List FacultyRec) (f s : String) :
    f ∈ qualifiedFor (buildFSM faculty) s ↔
      ∃ row ∈ faculty, row.employee_id = f ∧ s ∈ splitCSV row.subject_name := by
  unfold qualifiedFor buildFSM
  constructor
  · intro h
    obtain ⟨p, hp, hpf⟩ := List.mem_map.mp h
    obtain ⟨hpmem, hps⟩ := List.mem_filter.mp hp
    obtain ⟨row, hrow, hmem2⟩ := List.mem_flatMap.mp hpmem
    obtain ⟨subj, hsubj, hpair⟩ := List.mem_map.mp hmem2
    refine ⟨row, hrow, ?_, ?_⟩
    · rw [← hpf, ← hpair]
    · have : p.1 = s := by simpa using hps
      rw [← this, ← hpair]
      simpa using hsubj
  · rintro ⟨row, hrow, hid, hsubj⟩
    apply List.mem_map.mpr
    refine ⟨(s, f), ?_, rfl⟩
    apply List.mem_filter.mpr
    refine ⟨?_, by simp⟩
    apply List.mem_flatMap.mpr
    refine ⟨row, hrow, ?_⟩
    apply List.mem_map.mpr
    exact ⟨s, hsubj, by rw [hid]⟩

lemma prepStep_no_qualified (subjects : List SubjectRec)
    (fsm : List (String × String)) (batch_id : String) (count : Nat)
    (acc : PrepAcc) (s : String) (h : qualifiedFor fsm s = []) :
    prepStep subjects fsm batch_id count acc s = acc := by
  unfold prepStep
  cases hfind : subjects.find? (fun x => x.name = s) with
  | none => rfl
  | some sd =>
    rw [h]
    rfl

lemma prepStep_selected (subjects : List SubjectRec)
    (fsm : List (String × String)) (batch_id : String) (count : Nat)
    (acc : PrepAcc) (s : String) (sd : SubjectRec) (best : String)
    (hfind : subjects.find? (fun x => x.name = s) = some sd)
    (hmin : pyMinByWorkload acc.workload (qualifiedFor fsm s) = some best) :
    (prepStep subjects fsm batch_id count acc s).bsfMap =
      ((batch_id, s), best) :: acc.bsfMap ∧
    (prepStep subjects fsm batch_id count acc s).workload best =
      acc.workload best + _calculate_hours_per_week sd.credits sd.type ∧
    (∀ f2, f2 ≠ best →
      (prepStep subjects fsm batch_id count acc s).workload f2 =
        acc.workload f2) ∧
    (prepStep subjects fsm batch_id count acc s).classes =
      acc.classes ++ List.replicate
        (_calculate_hours_per_week sd.credits sd.type)
        ⟨batch_id, s, sd.type, count, sd.credits,
         _calculate_hours_per_week sd.credits sd.type⟩ := by
  unfold prepStep
  rw [hfind]
  dsimp only
  rw [hmin]
  refine ⟨rfl, by simp, ?_, rfl⟩
  intro f2 hf2
  simp [hf2]

lemma repair_subset {c : List Gene} {g : Gene}
    (h : g ∈ _repair_chromosome c) : g ∈ c := by
  unfold _repair_chromosome at h
  split at h
  · exact h
  · exact repairAux_subset h

lemma crossover_mem {p1 p2 : List Gene} {r : RNG} {g : Gene}
    (h : g ∈ (crossover p1 p2 r).1) : g ∈ p1 ∨ g ∈ p2 := by
  unfold crossover at h
  split at h
  · split at h
    · exact Or.inr h
    · exact Or.inl h
  · dsimp only at h
    split at h
    · exact Or.inl h
    · have hc := repair_subset h
      rcases List.mem_append.mp hc with hc | hc
      · rcases List.mem_append.mp hc with hc | hc
        · exact Or.inl (List.take_subset _ _ hc)
        · exact Or.inr (List.drop_subset _ _ (List.take_subset _ _ hc))
      · exact Or.inl (List.drop_subset _ _ hc)

lemma getD_lt {l : List Nat} {n : Nat} (hall : ∀ x ∈ l, x < n) (hn : 0 < n)
    (k : Nat) : l.getD k 0 < n := by
  by_cases hk : k < l.length
  · exact hall _ (getD_mem_of_lt _ _ _ hk)
  · rw [List.getD_eq_default _ _ (Nat.le_of_not_lt hk)]
    exact hn

lemma gene_eta (g : Gene) : g = { g with day := g.day, hour := g.hour } := by
  cases g; rfl

lemma pyRandint_zero_lt {n : Nat} (hn : 0 < n) (r : RNG) :
    (pyRandint 0 (n - 1) r).1 < n := by
  unfold pyRandint
  dsimp only
  have h1 : n - 1 + 1 - 0 = n := by omega
  rw [h1]
  simpa using Nat.mod_lt _ hn

lemma mutate_mem {m : PyFloat} {c : List Gene} {r : RNG} {g : Gene}
    (h : g ∈ (mutate m c r).1) :
    ∃ g0 ∈ c, g = { g0 with day := g.day, hour := g.hour } := by
  unfold mutate at h
  split at h
  · exact ⟨g, h, gene_eta g⟩
  · rename_i hne
    dsimp only at h
    split at h
    · exact ⟨g, h, gene_eta g⟩
    · split at h
      · have hsub := repair_subset h
        rcases List.mem_or_eq_of_mem_set hsub with hmem | heq
        · exact ⟨g, hmem, gene_eta g⟩
        · subst heq
          refine ⟨_, ?_, rfl⟩
          exact getD_mem_of_lt _ _ _
            (pyRandint_zero_lt (List.length_pos.mpr hne) _)
      · split at h
        · rename_i hswap
          have hlen1 : 1 < c.length := hswap.2
          have hsub := repair_subset h
          rcases List.mem_or_eq_of_mem_set hsub with hmem | heq
          · rcases List.mem_or_eq_of_mem_set hmem with hmem2 | heq2
            · exact ⟨g, hmem2, gene_eta g⟩
            · subst heq2
              refine ⟨_, ?_, rfl⟩
              refine getD_mem_of_lt _ _ _ (getD_lt ?_ (by omega) _)
              intro x hx
              exact List.mem_range.mp (pySample_subset _ _ _ hx)
          · subst heq
            refine ⟨_, ?_, rfl⟩
            refine getD_mem_of_lt _ _ _ (getD_lt ?_ (by omega) _)
            intro x hx
            exact List.mem_range.mp (pySample_subset _ _ _ hx)
        · exact ⟨g, repair_subset h, gene_eta g⟩

lemma drawSortKeys_snd_mem :
    ∀ (classes : List ClassInfo) (r : RNG)
      (p : (Bool × Int × PyFloat) × ClassInfo),
      p ∈ (drawSortKeys classes r).1 → p.2 ∈ classes := by
  intro classes
  induction classes with
  | nil => intro r p hp; simp [drawSortKeys] at hp
  | cons c cs ih =>
    intro r p hp
    simp only [drawSortKeys, List.mem_cons] at hp
    rcases hp with rfl | hp
    · exact List.mem_cons_self _ _
    · exact List.mem_cons_of_mem _ (ih _ _ hp)

lemma foldl_chromStep_mem (data : PreparedData) :
    ∀ (classes : List ClassInfo) (acc : List Gene × UsedSlots × RNG)
      (g : Gene), g ∈ (classes.foldl (chromStep data) acc).1 →
      g ∈ acc.1 ∨ ∃ ci ∈ classes, ∃ used r2,
        (_create_gene ci used data r2).1 = some g := by
  intro classes
  induction classes with
  | nil => intro acc g hg; exact Or.inl hg
  | cons c cs ih =>
    intro acc g hg
    rw [List.foldl_cons] at hg
    rcases ih _ _ hg with hstep | ⟨ci, hci, used, r2, hsome⟩
    · unfold chromStep at hstep
      rcases hcr : (_create_gene c acc.2.1 data acc.2.2).1 with _ | g0
      · rw [hcr] at hstep
        exact Or.inl hstep
      · rw [hcr] at hstep
        dsimp only at hstep
        rcases List.mem_append.mp hstep with hstep | hstep
        · exact Or.inl hstep
        · rw [List.mem_singleton.mp hstep]
          exact Or.inr ⟨c, List.mem_cons_self _ _, acc.2.1, acc.2.2, hcr⟩
    · exact Or.inr ⟨ci, List.mem_cons_of_mem _ hci, used, r2, hsome⟩

lemma create_chromosome_provenance {data : PreparedData} {r : RNG} {g : Gene}
    (h : g ∈ (create_chromosome data r).1) :
    ∃ ci ∈ data.classes_to_schedule, ∃ used r2,
      (_create_gene ci used data r2).1 = some g := by
  unfold create_chromosome at h
  dsimp only at h
  rcases foldl_chromStep_mem data _ _ _ h with hacc | ⟨ci, hci, used, r2, hsome⟩
  · simp at hacc
  · obtain ⟨p, hp, rfl⟩ := List.mem_map.mp hci
    exact ⟨p.2, drawSortKeys_snd_mem _ _ _ (sortBy_mem.mp hp), used, r2, hsome⟩

lemma prepStep_classes_inv (subjects : List SubjectRec)
    (fsm : List (String × String)) (batch_id : String) (count : Nat)
    (P : ClassInfo → Prop)
    (hP : ∀ s sd, subjects.find? (fun x => x.name = s) = some sd →
      P ⟨batch_id, s, sd.type, count, sd.credits,
         _calculate_hours_per_week sd.credits sd.type⟩)
    (acc : PrepAcc) (s : String) (hacc : ∀ ci ∈ acc.classes, P ci) :
    ∀ ci ∈ (prepStep subjects fsm batch_id count acc s).classes, P ci := by
  intro ci hci
  unfold prepStep at hci
  cases hfind : subjects.find? (fun x => x.name = s) with
  | none =>
    rw [hfind] at hci
    exact hacc ci hci
  | some sd =>
    rw [hfind] at hci
    dsimp only at hci
    cases hmin : pyMinByWorkload acc.workload (qualifiedFor fsm s) with
    | none =>
      rw [hmin] at hci
      exact hacc ci hci
    | some best =>
      rw [hmin] at hci
      dsimp only at hci
      rcases List.mem_append.mp hci with hci | hci
      · exact hacc ci hci
      · rw [List.eq_of_mem_replicate hci]
        exact hP s sd hfind

lemma prepare_classes_type (batches : List BatchRec)
    (classrooms : List RoomRec) (faculty : List FacultyRec)
    (subjects : List SubjectRec) :
    ∀ ci ∈ (prepare_data batches classrooms faculty subjects).classes_to_schedule,
      ∃ sd, subjects.find? (fun x => x.name = ci.subject_name) = some sd ∧
        ci.subject_type = sd.type := by
  have hstep : ∀ (fsm : List (String × String)) (batch_id : String)
      (count : Nat) (acc : PrepAcc) (names : List String),
      (∀ ci ∈ acc.classes, ∃ sd,
        subjects.find? (fun x => x.name = ci.subject_name) = some sd ∧
          ci.subject_type = sd.type) →
      ∀ ci ∈ (names.foldl (prepStep subjects fsm batch_id count) acc).classes,
        ∃ sd, subjects.find? (fun x => x.name = ci.subject_name) = some sd ∧
          ci.subject_type = sd.type := by
    intro fsm batch_id count acc names
    induction names generalizing acc with
    | nil => intro hacc; exact hacc
    | cons s ss ih =>
      intro hacc
      rw [List.foldl_cons]
      apply ih
      apply prepStep_classes_inv subjects fsm batch_id count _ _ acc s hacc
      intro s2 sd hfind
      exact ⟨sd, hfind, rfl⟩
  have hbatches : ∀ (bs : List BatchRec) (acc : PrepAcc),
      (∀ ci ∈ acc.classes, ∃ sd,
        subjects.find? (fun x => x.name = ci.subject_name) = some sd ∧
          ci.subject_type = sd.type) →
      ∀ ci ∈ (bs.foldl (fun acc b =>
          (splitCSV b.subjects).foldl
            (prepStep subjects (buildFSM faculty)
              (b.department ++ "-" ++ b.level ++ "-" ++ b.semester)
              b.student_count) acc) acc).classes,
        ∃ sd, subjects.find? (fun x => x.name = ci.subject_name) = some sd ∧
          ci.subject_type = sd.type := by
    intro bs
    induction bs with
    | nil => intro acc hacc; exact hacc
    | cons b bs2 ih =>
      intro acc hacc
      rw [List.foldl_cons]
      apply ih
      exact hstep _ _ _ _ _ hacc
  intro ci hci
  exact hbatches batches ⟨[], [], fun _ => 0⟩ (by simp) ci hci

lemma create_lab_room_typing (b : List BatchRec) (c : List RoomRec)
    (f : List FacultyRec) (s : List SubjectRec) (r : RNG) :
    ∀ g ∈ (create_chromosome (prepare_data b c f s) r).1,
      ∃ sd, s.find? (fun x => x.name = g.subject_name) = some sd ∧
        ∃ room ∈ c, g.room_id = room.class_id ∧
          (sd.type = "Lab" → room.room_type = "Laboratory") ∧
          (sd.type ≠ "Lab" → room.room_type ≠ "Laboratory") := by
  intro g hg
  obtain ⟨ci, hci, used, r2, hsome⟩ := create_chromosome_provenance hg
  obtain ⟨_, _, _, _, hsubj, room, hroommem, _, hrid⟩ := _create_gene_spec hsome
  obtain ⟨sd, hfind, htype⟩ := prepare_classes_type b c f s ci hci
  by_cases hlab : ci.subject_type = "Lab"
  · rw [if_pos hlab] at hroommem
    have hf2 : room ∈ c.filter (fun room => room.room_type = "Laboratory") :=
      hroommem
    obtain ⟨hcmem, htyp⟩ := List.mem_filter.mp hf2
    simp only [decide_eq_true_eq] at htyp
    refine ⟨sd, by rw [hsubj]; exact hfind, room, hcmem, hrid,
      fun _ => htyp, ?_⟩
    intro hne
    exact absurd (by rw [← htype]; exact hlab) hne
  · rw [if_neg hlab] at hroommem
    have hf2 : room ∈ c.filter (fun room => room.room_type ≠ "Laboratory") :=
      hroommem
    obtain ⟨hcmem, htyp⟩ := List.mem_filter.mp hf2
    simp only [decide_eq_true_eq] at htyp
    refine ⟨sd, by rw [hsubj]; exact hfind, room, hcmem, hrid, ?_,
      fun _ => htyp⟩
    intro hLab
    exact absurd (by rw [htype]; exact hLab) hlab

lemma quality_penalty_eq (slots : List (String × Nat)) :
    _calculate_schedule_quality_penalty slots =
      ((groupByKey slots).map (fun g =>
        specGapPenaltyAmended (sortedHoursInt g.2) +
          consecPenaltyPart (sortedHoursInt g.2))).sum := by
  unfold _calculate_schedule_quality_penalty
  congr 1
  apply List.map_congr_left
  intro g _
  exact dayQualityPenalty_eq g.2

lemma single_gap_zero (day : String) (a : Nat) :
    _calculate_schedule_quality_penalty [(day, a), (day, a + 2)] = 0 := by
  rw [quality_penalty_eq]
  have hgrp : groupByKey [(day, a), (day, a + 2)] = [(day, [a, a + 2])] := by
    simp [groupByKey, groupInsert]
  rw [hgrp]
  simp only [List.map_cons, List.map_nil, List.sum_cons, List.sum_nil]
  have hsort : sortedHoursInt [a, a + 2] = [Int.ofNat a, Int.ofNat a + 2] := by
    unfold sortedHoursInt
    have h1 : sortBy (fun a b => decide (a ≤ b)) [a, a + 2] = [a, a + 2] := by
      show insertLe (fun a b => decide (a ≤ b)) a [a + 2] = [a, a + 2]
      unfold insertLe
      rw [if_pos (by simp)]
    rw [h1]
    simp [Int.ofNat_add]
  rw [hsort]
  unfold specGapPenaltyAmended consecPenaltyPart
  have hc : consecLoop [Int.ofNat a, Int.ofNat a + 2] 1 0 = 1 := by
    unfold consecLoop
    rw [if_neg (by omega)]
    rfl
  rw [hc]
  simp only [List.tail_cons, List.zip_cons_cons, List.zip_nil_right,
    List.map_cons, List.map_nil, List.sum_cons, List.sum_nil]
  rw [if_neg (by omega), if_neg (by decide)]
  simp

/-- C1: the feasibility invariant fails at the engine boundary of the
source.  Repair, the constructor, and the return values of `crossover` and
`mutate` are feasible at the moment they are produced (the lemmas
`repair_feasible`, `create_chromosome_feasible`, `crossover_feasible`,
`mutate_feasible` and, for the value-semantics reading of the loop,
`run_evolution_feasible`), but the source's `mutate` assigns
`mutated[idx].day`/`.hour` in place after a *shallow* list copy, and
`best_chromosome` and the elites are shallow copies sharing the same `Gene`
objects.  In the reference model: a saved best-ever chromosome holds genes
`(B1, Math, T1, R1, Monday, 1)` and `(B1, Math, T1, R1, Monday, 2)` and is
feasible when saved; a later crossover child shares the first `Gene`
object; the child's in-place timeslot mutation rewrites it to
`(Monday, 2)`, after which the saved best dereferences to a schedule in
which `(instructor, slot)`, `(cohort, slot)` and `(room, slot)` are each
duplicated — `run_evolution`'s `return best_chromosome` hands back this
corrupted, infeasible list. -/
theorem C1_bestever_corrupted_infeasible :
    feasible (derefChromosome
      ⟨[⟨"B1", "Math", "T1", "R1", "Monday", 1, "all"⟩,
        ⟨"B1", "Math", "T1", "R1", "Monday", 2, "all"⟩]⟩ [0, 1]) ∧
    ¬ feasible (derefChromosome
      (mutateTimeslotInPlace
        ⟨[⟨"B1", "Math", "T1", "R1", "Monday", 1, "all"⟩,
          ⟨"B1", "Math", "T1", "R1", "Monday", 2, "all"⟩]⟩
        [0] 0 "Monday" 2) [0, 1]) := by
  refine ⟨by decide, by decide⟩

/-- C2: with the same seed, two executions of a single evolutionary run
produce the identical best schedule and the identical fitness history.  The
embedding threads one explicit deterministic generator seeded by
`random.seed(seed)` through every stochastic choice, and `run_single_ga`
reads no other state, so equal seeds force equal runs. -/
theorem C2_run_deterministic (cfg : GAConfig) (seed1 seed2 : Nat)
    (batches : List BatchRec) (classrooms : List RoomRec)
    (faculty : List FacultyRec) (subjects : List SubjectRec)
    (h : seed1 = seed2) :
    (run_single_ga cfg seed1 batches classrooms faculty subjects).1.1 =
      (run_single_ga cfg seed2 batches classrooms faculty subjects).1.1 ∧
    (run_single_ga cfg seed1 batches classrooms faculty subjects).2 =
      (run_single_ga cfg seed2 batches classrooms faculty subjects).2 := by
  subst h
  exact ⟨rfl, rfl⟩

/-- C2 witness: the determinism theorem at seed 42 on a concrete problem. -/
theorem C2_run_deterministic_witness :
    (run_single_ga ⟨2, 3, ⟨2, 100⟩, ⟨5, 100⟩, 5⟩ 42
      [⟨"CS", "UG", "1", 30, "Math"⟩] [⟨"R1", 30, "LectureHall"⟩]
      [⟨"T1", "Math", 20, true⟩] [⟨"Math", 3, "Theory"⟩]).1.1 =
      (run_single_ga ⟨2, 3, ⟨2, 100⟩, ⟨5, 100⟩, 5⟩ 42
        [⟨"CS", "UG", "1", 30, "Math"⟩] [⟨"R1", 30, "LectureHall"⟩]
        [⟨"T1", "Math", 20, true⟩] [⟨"Math", 3, "Theory"⟩]).1.1 ∧
    (run_single_ga ⟨2, 3, ⟨2, 100⟩, ⟨5, 100⟩, 5⟩ 42
      [⟨"CS", "UG", "1", 30, "Math"⟩] [⟨"R1", 30, "LectureHall"⟩]
      [⟨"T1", "Math", 20, true⟩] [⟨"Math", 3, "Theory"⟩]).2 =
      (run_single_ga ⟨2, 3, ⟨2, 100⟩, ⟨5, 100⟩, 5⟩ 42
        [⟨"CS", "UG", "1", 30, "Math"⟩] [⟨"R1", 30, "LectureHall"⟩]
        [⟨"T1", "Math", 20, true⟩] [⟨"Math", 3, "Theory"⟩]).2 :=
  C2_run_deterministic ⟨2, 3, ⟨2, 100⟩, ⟨5, 100⟩, 5⟩ 42 42
    [⟨"CS", "UG", "1", 30, "Math"⟩] [⟨"R1", 30, "LectureHall"⟩]
    [⟨"T1", "Math", 20, true⟩] [⟨"Math", 3, "Theory"⟩] rfl

/-- C3: instructor substitution is atomic.  If any slot of an active entry
of the original instructor is already occupied by an active entry of the
substitute, the operation fails with the conflict error and returns no
schedule (the source raises before its update loop touches any row);
otherwise every affected entry's instructor is rewritten to the substitute
and every other entry is unchanged. -/
theorem C3_substitute_instructor_atomic :
    (∀ (entries : List TEntry) (orig sub : String),
      substituteConflict entries orig sub →
      handle_teacher_leave_optimization entries orig sub =
        Except.error "Substitute teacher has scheduling conflicts") ∧
    (∀ (entries : List TEntry) (orig sub : String),
      ¬ substituteConflict entries orig sub →
      ∃ l, handle_teacher_leave_optimization entries orig sub =
          Except.ok l ∧
        l.length = entries.length ∧
        ∀ i, i < entries.length →
          (((entries.getD i default).faculty_id = orig ∧
              (entries.getD i default).status = "active") →
            l.getD i default =
              { entries.getD i default with faculty_id := sub }) ∧
          (¬ ((entries.getD i default).faculty_id = orig ∧
              (entries.getD i default).status = "active") →
            l.getD i default = entries.getD i default)) :=
  ⟨fun _ _ _ h => teacher_leave_conflict h,
   fun _ _ _ h => teacher_leave_success h⟩

/-- C3 witness: the conflict branch at the concrete schedule of Scenario C
(instructors A and B both teaching on Monday hour 1). -/
theorem C3_substitute_instructor_atomic_witness :
    handle_teacher_leave_optimization
      [⟨"B1", "Math", "A", "R1", "Monday", 1, "active"⟩,
       ⟨"B2", "Phys", "B", "R2", "Monday", 1, "active"⟩] "A" "B" =
      Except.error "Substitute teacher has scheduling conflicts" :=
  C3_substitute_instructor_atomic.1 _ "A" "B" (by decide)

/-- C4 counterexample: on the slots `(Monday, 1), (Monday, 4)` — sorted
hours `1, 4`, that is a gap of two empty hours — the source penalty is
`15 · 2 = 30`, while the claim's formula `15 · max(0, h2 − h1 − 2)` gives
`15`; the claim as stated is false at this input. -/
theorem C4_gap_penalty_counterexample :
    _calculate_schedule_quality_penalty [("Monday", 1), ("Monday", 4)] = 30 ∧
    specGapPenaltyClaimed (sortedHoursInt [1, 4]) = 15 ∧ (30 : Int) ≠ 15 := by
  refine ⟨by decide, by decide, by decide⟩

/-- C4 (amended): the per-cohort quality penalty groups the cohort's slots
by day, sorts each day's hours, and adds, for each adjacent pair with
`gap = h2 − h1 − 1` empty hours, exactly `15 · gap` when `gap ≥ 2` and
nothing otherwise (plus the separate excessive-consecutive term); in
particular a single empty hour (`h2 = h1 + 2`) contributes nothing. -/
theorem C4_gap_penalty_amended :
    (∀ slots : List (String × Nat),
      _calculate_schedule_quality_penalty slots =
        ((groupByKey slots).map (fun g =>
          specGapPenaltyAmended (sortedHoursInt g.2) +
            consecPenaltyPart (sortedHoursInt g.2))).sum) ∧
    (∀ (day : String) (a : Nat),
      _calculate_schedule_quality_penalty [(day, a), (day, a + 2)] = 0) :=
  ⟨quality_penalty_eq, single_gap_zero⟩

/-- C5 counterexample: `optimize_for_room_change` on one active assignment
of a cohort of 60 moved to a room of capacity 30 leaves the assignment
entirely unchanged — its status stays `active`, it is *not* marked
cancelled — and only reports it in the capacity-issues list; the claim as
stated (the assignment is marked cancelled) is false at this input. -/
theorem C5_room_substitution_counterexample :
    (optimize_for_room_change
      [⟨"B1", "Math", "T1", "R_big", "Monday", 1, "active"⟩] [⟨"B1", 60⟩]
      "R_big" "R_small" 30 none).1 =
      [⟨"B1", "Math", "T1", "R_big", "Monday", 1, "active"⟩] ∧
    (optimize_for_room_change
      [⟨"B1", "Math", "T1", "R_big", "Monday", 1, "active"⟩] [⟨"B1", 60⟩]
      "R_big" "R_small" 30 none).2 = [("B1", 60, 30)] ∧
    ((optimize_for_room_change
      [⟨"B1", "Math", "T1", "R_big", "Monday", 1, "active"⟩] [⟨"B1", 60⟩]
      "R_big" "R_small" 30 none).1.getD 0 default).status ≠ "cancelled" := by
  refine ⟨by decide, by decide, by decide⟩

/-- C5 (amended): room substitution `old → new` behaves as follows.  In
`optimize_for_room_change`, every affected assignment whose cohort's known
student count exceeds the new capacity is skipped — room and status
unchanged — and reported in the returned capacity-issues list, and every
other affected assignment has its room rewritten; nothing is marked
cancelled there.  In `_handle_room_emergency` (replacement room found),
such over-capacity assignments are instead marked cancelled and their room
is not rewritten, and the rest are moved to the replacement room.  When
every affected cohort exceeds the new capacity, the first function rewrites
no assignment and lists every affected one, and the second cancels every
affected assignment. -/
theorem C5_room_substitution_amended :
    (∀ (entries : List TEntry) (batches : List BatchRow)
        (oldR newR : String) (cap : Nat) (ab : Option (List String))
        (i : Nat), i < entries.length →
      (roomChangeAffected oldR ab (entries.getD i default) = true →
        (∀ b, batches.find?
            (fun b2 => b2.batch_id = (entries.getD i default).batch_id) =
            some b →
          (b.student_count > cap →
            (optimize_for_room_change entries batches oldR newR cap
              ab).1.getD i default = entries.getD i default ∧
            ((entries.getD i default).batch_id, b.student_count, cap) ∈
              (optimize_for_room_change entries batches oldR newR cap
                ab).2) ∧
          (b.student_count ≤ cap →
            (optimize_for_room_change entries batches oldR newR cap
              ab).1.getD i default =
              { entries.getD i default with room_id := newR })) ∧
        (batches.find?
            (fun b2 => b2.batch_id = (entries.getD i default).batch_id) =
            none →
          (optimize_for_room_change entries batches oldR newR cap
            ab).1.getD i default =
            { entries.getD i default with room_id := newR })) ∧
      (roomChangeAffected oldR ab (entries.getD i default) = false →
        (optimize_for_room_change entries batches oldR newR cap ab).1.getD
          i default = entries.getD i default)) ∧
    (∀ (entries : List TEntry) (batches : List BatchRow)
        (room_id replacement_room_id : String) (cap : Nat) (i : Nat),
      i < entries.length →
      (((entries.getD i default).room_id = room_id ∧
          (entries.getD i default).status = "active") →
        (∀ b, batches.find?
            (fun b2 => b2.batch_id = (entries.getD i default).batch_id) =
            some b →
          (b.student_count > cap →
            (_handle_room_emergency entries batches room_id
              replacement_room_id cap).getD i default =
              { entries.getD i default with status := "cancelled" }) ∧
          (b.student_count ≤ cap →
            (_handle_room_emergency entries batches room_id
              replacement_room_id cap).getD i default =
              { entries.getD i default with
                  room_id := replacement_room_id })) ∧
        (batches.find?
            (fun b2 => b2.batch_id = (entries.getD i default).batch_id) =
            none →
          (_handle_room_emergency entries batches room_id
            replacement_room_id cap).getD i default =
            { entries.getD i default with
                room_id := replacement_room_id })) ∧
      (¬ ((entries.getD i default).room_id = room_id ∧
          (entries.getD i default).status = "active") →
        (_handle_room_emergency entries batches room_id replacement_room_id
          cap).getD i default = entries.getD i default)) ∧
    (∀ (entries : List TEntry) (batches : List BatchRow)
        (oldR newR : String) (cap : Nat) (ab : Option (List String)),
      (∀ e ∈ entries, roomChangeAffected oldR ab e = true →
        ∃ b, batches.find? (fun b2 => b2.batch_id = e.batch_id) = some b ∧
          b.student_count > cap) →
      (optimize_for_room_change entries batches oldR newR cap ab).1 =
        entries ∧
      ∀ e ∈ entries, roomChangeAffected oldR ab e = true →
        ∃ b, batches.find? (fun b2 => b2.batch_id = e.batch_id) = some b ∧
          (e.batch_id, b.student_count, cap) ∈
            (optimize_for_room_change entries batches oldR newR cap
              ab).2) ∧
    (∀ (entries : List TEntry) (batches : List BatchRow)
        (room_id replacement_room_id : String) (cap : Nat),
      (∀ e ∈ entries, e.room_id = room_id → e.status = "active" →
        ∃ b, batches.find? (fun b2 => b2.batch_id = e.batch_id) = some b ∧
          b.student_count > cap) →
      ∀ i, i < entries.length →
        (entries.getD i default).room_id = room_id →
        (entries.getD i default).status = "active" →
        (_handle_room_emergency entries batches room_id replacement_room_id
          cap).getD i default =
          { entries.getD i default with status := "cancelled" }) :=
  ⟨room_change_entry, room_emergency_entry, room_change_all_over,
   room_emergency_all_over⟩

/-- C5 witness: Scenario F — a cohort of 60 moved into a room of capacity
30: `optimize_for_room_change` rewrites nothing and `_handle_room_emergency`
cancels the affected assignment. -/
theorem C5_room_substitution_amended_witness :
    (optimize_for_room_change
      [⟨"B1", "Math", "T1", "R_big", "Monday", 1, "active"⟩] [⟨"B1", 60⟩]
      "R_big" "R_small" 30 none).1 =
      [⟨"B1", "Math", "T1", "R_big", "Monday", 1, "active"⟩] ∧
    (_handle_room_emergency
      [⟨"B1", "Math", "T1", "R_big", "Monday", 1, "active"⟩] [⟨"B1", 60⟩]
      "R_big" "R_small" 30).getD 0 default =
      ⟨"B1", "Math", "T1", "R_big", "Monday", 1, "cancelled"⟩ :=
  ⟨(C5_room_substitution_amended.2.2.1
      [⟨"B1", "Math", "T1", "R_big", "Monday", 1, "active"⟩] [⟨"B1", 60⟩]
      "R_big" "R_small" 30 none
      (by
        intro e he _
        rw [List.mem_singleton] at he
        subst he
        exact ⟨⟨"B1", 60⟩, by decide, by decide⟩)).1,
   C5_room_substitution_amended.2.2.2
      [⟨"B1", "Math", "T1", "R_big", "Monday", 1, "active"⟩] [⟨"B1", 60⟩]
      "R_big" "R_small" 30
      (by
        intro e he _ _
        rw [List.mem_singleton] at he
        subst he
        exact ⟨⟨"B1", 60⟩, by decide, by decide⟩)
      0 (by decide) (by decide) (by decide)⟩

/-- C6: the source `run_evolution` accepts no cancellation signal and checks
none — its loop leaves early only on `max_generations` or a generation best
fitness of at least `0.99`.  Evaluating the engine on a concrete instance
whose fitness never reaches `0.99` (no cohorts, so every chromosome is
empty with fitness `0`): every one of the three configured generations
executes, so no cancellation boundary exists at which the engine could
stop. -/
theorem C6_engine_has_no_cancellation_check :
    (run_evolution ⟨2, 3, ⟨2, 100⟩, ⟨5, 100⟩, 5⟩ (prepare_data [] [] [] [])
      ⟨7⟩).2.1.length = 3 ∧
    (run_evolution ⟨2, 3, ⟨2, 100⟩, ⟨5, 100⟩, 5⟩ (prepare_data [] [] [] [])
      ⟨7⟩).1 = [] := by
  refine ⟨by decide, by decide⟩

/-- C7 counterexample: availability does not gate eligibility.  With a
single instructor `T1` teaching `Math` whose `is_available` flag is
`false`, `prepare_data` still pre-selects `T1` for the cohort's `Math`
sessions and creates the pair's two sessions; under the claim the pair
would have no eligible instructor and contribute no sessions. -/
theorem C7_availability_not_gating_counterexample :
    (prepare_data [⟨"CS", "UG", "1", 30, "Math"⟩] []
      [⟨"T1", "Math", 20, false⟩]
      [⟨"Math", 3, "Theory"⟩]).batch_subject_faculty_map =
      [(("CS-UG-1", "Math"), "T1")] ∧
    (⟨"T1", "Math", 20, false⟩ : FacultyRec).is_available = false ∧
    (prepare_data [⟨"CS", "UG", "1", 30, "Math"⟩] []
      [⟨"T1", "Math", 20, false⟩]
      [⟨"Math", 3, "Theory"⟩]).classes_to_schedule.length = 2 := by
  refine ⟨by decide, rfl, by decide⟩

/-- C7 (amended): for every (cohort, subject) pair with at least one
*qualified* instructor — one whose comma-split teachable-subject list
contains the subject; the availability flag is ignored — the pre-selected
instructor is the first qualified instructor of minimal current provisional
workload (Python `min` keeps the first minimum, which is first-seen order),
the pair is recorded in the map, that instructor's provisional workload is
incremented by the pair's session count, and pairs with no qualified
instructor leave the accumulator untouched and contribute no sessions. -/
theorem C7_instructor_preselection_amended :
    (∀ (w : String → Nat) (b : String) (fs : List String),
      pyMinByWorkload w (b :: fs) = firstMinBy w (b :: fs)) ∧
    (∀ (w : String → Nat) (l : List String) (f : String),
      firstMinBy w l = some f → f ∈ l ∧ ∀ g ∈ l, w f ≤ w g) ∧
    (∀ (faculty : List FacultyRec) (f s : String),
      f ∈ qualifiedFor (buildFSM faculty) s ↔
        ∃ row ∈ faculty, row.employee_id = f ∧
          s ∈ splitCSV row.subject_name) ∧
    (∀ (subjects : List SubjectRec) (fsm : List (String × String))
        (batch_id : String) (count : Nat) (acc : PrepAcc) (s : String),
      qualifiedFor fsm s = [] →
      prepStep subjects fsm batch_id count acc s = acc) ∧
    (∀ (subjects : List SubjectRec) (fsm : List (String × String))
        (batch_id : String) (count : Nat) (acc : PrepAcc) (s : String)
        (sd : SubjectRec) (best : String),
      subjects.find? (fun x => x.name = s) = some sd →
      pyMinByWorkload acc.workload (qualifiedFor fsm s) = some best →
      (prepStep subjects fsm batch_id count acc s).bsfMap =
        ((batch_id, s), best) :: acc.bsfMap ∧
      (prepStep subjects fsm batch_id count acc s).workload best =
        acc.workload best + _calculate_hours_per_week sd.credits sd.type ∧
      (∀ f2, f2 ≠ best →
        (prepStep subjects fsm batch_id count acc s).workload f2 =
          acc.workload f2) ∧
      (prepStep subjects fsm batch_id count acc s).classes =
        acc.classes ++ List.replicate
          (_calculate_hours_per_week sd.credits sd.type)
          ⟨batch_id, s, sd.type, count, sd.credits,
           _calculate_hours_per_week sd.credits sd.type⟩) :=
  ⟨fun w b fs => pyMin_eq_firstMin w fs b, firstMinBy_spec, qualifiedFor_iff,
   prepStep_no_qualified, prepStep_selected⟩

/-- C7 witness: the selection rule on a concrete workload table (the first
minimum is chosen), and one concrete `prepStep` recording the selection and
incrementing the workload by the session count. -/
theorem C7_instructor_preselection_amended_witness :
    pyMinByWorkload w0demo ["T1", "T2", "T3"] =
      firstMinBy w0demo ["T1", "T2", "T3"] ∧
    (prepStep [⟨"Math", 3, "Theory"⟩]
      (buildFSM [⟨"T1", "Math", 20, true⟩]) "CS-UG-1" 30
      ⟨[], [], fun _ => 0⟩ "Math").bsfMap =
      [(("CS-UG-1", "Math"), "T1")] ∧
    (prepStep [⟨"Math", 3, "Theory"⟩]
      (buildFSM [⟨"T1", "Math", 20, true⟩]) "CS-UG-1" 30
      ⟨[], [], fun _ => 0⟩ "Math").workload "T1" = 2 :=
  ⟨C7_instructor_preselection_amended.1 w0demo "T1" ["T2", "T3"],
   (C7_instructor_preselection_amended.2.2.2.2 _ _ _ _ _ _
      ⟨"Math", 3, "Theory"⟩ "T1" (by decide) (by decide)).1,
   (C7_instructor_preselection_amended.2.2.2.2 _ _ _ _ _ _
      ⟨"Math", 3, "Theory"⟩ "T1" (by decide) (by decide)).2.1⟩

/-- C8: lab routing.  Every assignment produced by the constructor on a
prepared problem has a room drawn from the correctly typed pool: if the
assignment's subject (first match in the subjects table) has type `Lab` the
room is a `Laboratory` room of the input table, and otherwise a
non-`Laboratory` room; and any per-gene property that does not depend on
the day or hour — such as this room typing — is preserved by `crossover`,
`mutate` and `_repair_chromosome`, which never change an assignment's
room. -/
theorem C8_lab_room_typing :
    (∀ (b : List BatchRec) (c : List RoomRec) (f : List FacultyRec)
        (s : List SubjectRec) (r : RNG),
      ∀ g ∈ (create_chromosome (prepare_data b c f s) r).1,
        ∃ sd, s.find? (fun x => x.name = g.subject_name) = some sd ∧
          ∃ room ∈ c, g.room_id = room.class_id ∧
            (sd.type = "Lab" → room.room_type = "Laboratory") ∧
            (sd.type ≠ "Lab" → room.room_type ≠ "Laboratory")) ∧
    (∀ (P : Gene → Prop),
      (∀ (g : Gene) (d : String) (hh : Nat),
        P g → P { g with day := d, hour := hh }) →
      (∀ (parent1 parent2 : List Gene) (r : RNG), (∀ g ∈ parent1, P g) →
        (∀ g ∈ parent2, P g) → ∀ g ∈ (crossover parent1 parent2 r).1, P g) ∧
      (∀ (m : PyFloat) (c2 : List Gene) (r : RNG), (∀ g ∈ c2, P g) →
        ∀ g ∈ (mutate m c2 r).1, P g) ∧
      (∀ c2 : List Gene, (∀ g ∈ c2, P g) →
        ∀ g ∈ _repair_chromosome c2, P g)) := by
  refine ⟨create_lab_room_typing, ?_⟩
  intro P hP
  refine ⟨?_, ?_, ?_⟩
  · intro p1 p2 r h1 h2 g hg
    rcases crossover_mem hg with hm | hm
    · exact h1 g hm
    · exact h2 g hm
  · intro m c2 r hc g hg
    obtain ⟨g0, hg0, heq⟩ := mutate_mem hg
    rw [heq]
    exact hP g0 _ _ (hc g0 hg0)
  · intro c2 hc g hg
    exact hc g (repair_subset hg)

/-- C8 witness: mutation at full rate on a concrete one-gene chromosome
leaves the room untouched (the preservation conjunct applied with the
property “the room is R1”). -/
theorem C8_lab_room_typing_witness :
    ((mutate ⟨1, 1⟩ [⟨"B1", "ProgLab", "T1", "R1", "Monday", 1, "all"⟩]
      ⟨3⟩).1.getD 0 default).room_id = "R1" :=
  (C8_lab_room_typing.2 (fun g => g.room_id = "R1")
    (fun _ _ _ hp => hp)).2.1 ⟨1, 1⟩
    [⟨"B1", "ProgLab", "T1", "R1", "Monday", 1, "all"⟩] ⟨3⟩
    (by decide) _ (by decide)

/-- C9: the repair scan is idempotent — `repair(repair(s)) = repair(s)` for
every schedule `s`: repair keeps a gene iff it is conflict-free against
everything kept before it, so its output rescans without further drops. -/
theorem C9_repair_scan_idempotent (s : List Gene) :
    _repair_chromosome (_repair_chromosome s) = _repair_chromosome s :=
  repair_idempotent s

/-- C10: chromosomes inserted into a population snapshot are *not* immune
to later genetic operators in the source: `mutate` copies the chromosome
list shallowly and assigns `mutated[idx].day`/`.hour` in place, writing
through the `Gene` object shared with the snapshot.  In the reference
model: one `Gene` object on the heap, an elite/best snapshot holding a
reference to it, a crossover child sharing the same reference — after the
child's timeslot mutation the snapshot's dereferenced genes have changed. -/
theorem C10_snapshot_mutated_through_alias :
    derefChromosome
      (mutateTimeslotInPlace
        ⟨[⟨"B1", "Math", "T1", "R1", "Monday", 1, "all"⟩]⟩ [0] 0
        "Friday" 6) [0] ≠
      derefChromosome
        ⟨[⟨"B1", "Math", "T1", "R1", "Monday", 1, "all"⟩]⟩ [0] := by
  decide
